import Mathlib

/-!
Verification of the Master-Plan-Standalone build/publish pipeline.

This file gives a shallow embedding, in Lean 4, of the core components of the
admin-service: the job lifecycle tracker (`app/services/job_service.py`), the
SSE event broadcaster (`app/lib/sse.py`), the tile pyramid generator
(`app/services/tile_service.py`), the release manifest builder
(`app/services/release_service.py`) and the build/publish orchestrators
(`app/jobs/build_job.py`, `app/jobs/publish_job.py`), together with theorems
settling the specified properties of those components.

Conventions: Python ints are modelled as `Nat`/`Int`; Python dicts either as
association lists or as the `Json` inductive defined below; database rows as
structures; every fallible external call of an orchestrator is driven by an
explicit environment describing its outcome, and the orchestrator body is a
pure function threading the observable state (job record, database rows,
object-store contents).
-/

/- ## Tile pyramid generator (`app/services/tile_service.py`) -/

namespace TileService

/-- One generated tile: grid address `(level, x, y)` and pixel bounds
`(left, top, right, bottom)` within the level image, exactly as computed by
the inner loop of `TileService.generate_tiles`. -/
structure Tile where
  level : Nat
  x : Nat
  y : Nat
  left : Nat
  top : Nat
  right : Nat
  bottom : Nat
deriving Repr, DecidableEq

/-- Fuel-indexed version of the level-counting loop
`while temp > tile_size: temp //= 2; levels += 1`; the fuel is an upper bound
on the number of iterations (`levelLoopF_fuel` shows any sufficient fuel gives
the same answer). -/
def levelLoopF (tileSize : Nat) : Nat → Nat → Nat
  | 0, _ => 0
  | fuel + 1, temp => if temp > tileSize then levelLoopF tileSize fuel (temp / 2) + 1 else 0

/-- Number of iterations of the `while temp > tile_size` loop started at `temp`. -/
def levelLoop (tileSize temp : Nat) : Nat := levelLoopF tileSize temp temp

/-- `levels = 1 + number of loop iterations`, from `generate_tiles`. -/
def numLevels (tileSize maxDim : Nat) : Nat := 1 + levelLoop tileSize maxDim

/-- `math.ceil(a / b)` for natural `a`, positive natural `b`. -/
def ceilDiv (a b : Nat) : Nat := (a + b - 1) / b

/-- The body of the innermost loop of `generate_tiles`: bounds of the tile at
grid cell `(x, y)` of a level image of size `lw × lh`, skipped (`continue`)
when the cell is empty. -/
def tileAt (tileSize lw lh level x y : Nat) : Option Tile :=
  let left := x * tileSize
  let top := y * tileSize
  let right := min (left + tileSize) lw
  let bottom := min (top + tileSize) lh
  if right ≤ left ∨ bottom ≤ top then none
  else some ⟨level, x, y, left, top, right, bottom⟩

/-- Row `y` of the tile grid of one level (`for x in range(cols)`). -/
def rowTiles (tileSize lw lh level y : Nat) : List Tile :=
  (List.range (ceilDiv lw tileSize)).filterMap (fun x => tileAt tileSize lw lh level x y)

/-- All tiles of one level (`for y in range(rows): for x in range(cols)`). -/
def levelTiles (tileSize lw lh level : Nat) : List Tile :=
  (List.range (ceilDiv lh tileSize)).flatMap (fun y => rowTiles tileSize lw lh level y)

/-- Width of level `L` out of `lvls`: `max(1, width // 2 ** (levels - level - 1))`. -/
def levelDim (lvls L dim : Nat) : Nat := max 1 (dim / 2 ^ (lvls - L - 1))

/-- Result metadata returned by `generate_tiles` (the dict at the end of the
function; `format`/`quality` only affect tile bytes, not addressing, and are
omitted). -/
structure TileResult where
  width : Nat
  height : Nat
  tile_size : Nat
  levels : Nat
  tile_count : Nat
deriving Repr, DecidableEq

/-- `TileService.generate_tiles`, modelled as a pure function from the source
image dimensions to the result metadata plus the list of generated tiles (in
generation order). -/
def generate_tiles (tileSize width height : Nat) : TileResult × List Tile :=
  let maxDim := max width height
  let lvls := numLevels tileSize maxDim
  let tiles := (List.range lvls).flatMap (fun level =>
    levelTiles tileSize (levelDim lvls level width) (levelDim lvls level height) level)
  (⟨width, height, tileSize, lvls, tiles.length⟩, tiles)

/-- Specification-side count of halvings: the least `k` with
`maxDim / 2 ^ k ≤ tileSize` ("the number of times `max(width, height)` must be
halved to reach a value ≤ T"). -/
def mustHalve (tileSize maxDim : Nat) : Nat :=
  Nat.find (p := fun k => maxDim / 2 ^ k ≤ tileSize)
    ⟨maxDim, by
      show maxDim / 2 ^ maxDim ≤ tileSize
      rw [Nat.div_eq_of_lt (Nat.lt_two_pow maxDim)]
      exact Nat.zero_le tileSize⟩

end TileService

/- ## JSON values and Python `json.dumps` -/

/-- A JSON value, as stored in the JSONB columns and serialized by
`json.dumps`. Numbers are modelled as integers (the serialized fields of this
code base are ints and strings). -/
inductive Json where
  | null
  | bool (b : Bool)
  | num (n : Int)
  | str (s : String)
  | arr (elems : List Json)
  | obj (fields : List (String × Json))

/-- A Python dict with string keys, in insertion order. -/
abbrev JDict := List (String × Json)

/-- One lowercase hex digit. -/
def hexDigit (n : Nat) : Char :=
  if n < 10 then Char.ofNat (48 + n) else Char.ofNat (87 + n)

/-- Four lowercase hex digits, as in Python's `\uXXXX` escapes. -/
def hex4 (n : Nat) : String :=
  String.mk [hexDigit (n / 4096 % 16), hexDigit (n / 256 % 16), hexDigit (n / 16 % 16), hexDigit (n % 16)]

/-- Escape one character as `json.dumps` (default `ensure_ascii=True`) does:
everything outside printable ASCII is `\uXXXX`-escaped (with surrogate pairs
above the BMP), quotes and backslashes are escaped, and the common control
characters use their short forms. -/
def jsonEscapeChar (c : Char) : String :=
  let n := c.toNat
  if c = '"' then "\\\""
  else if c = '\\' then "\\\\"
  else if c = '\n' then "\\n"
  else if c = '\r' then "\\r"
  else if c = '\t' then "\\t"
  else if n = 8 then "\\b"
  else if n = 12 then "\\f"
  else if n < 32 ∨ n > 126 then
    if n ≤ 65535 then "\\u" ++ hex4 n
    else
      let m := n - 65536
      "\\u" ++ hex4 (55296 + m / 1024) ++ "\\u" ++ hex4 (56320 + m % 1024)
  else String.mk [c]

/-- Serialize a string literal as `json.dumps` does. -/
def jsonEscape (s : String) : String :=
  "\"" ++ String.join (s.data.map jsonEscapeChar) ++ "\""

/-- Lexicographic code-point comparison of character lists: the order Python
uses on `str` (and the order of `String`'s `LinearOrder`), written so that the
kernel can evaluate it. -/
def charListLe : List Char → List Char → Bool
  | [], _ => true
  | _ :: _, [] => false
  | c1 :: r1, c2 :: r2 =>
      if c1.toNat < c2.toNat then true
      else if c2.toNat < c1.toNat then false
      else charListLe r1 r2

/-- `a <= b` on Python strings (code-point lexicographic). -/
def strLe (a b : String) : Bool := charListLe a.data b.data

/-- Key-wise insertion used to sort object fields when `sort_keys=True`. -/
def insertByKey (kv : String × String) : List (String × String) → List (String × String)
  | [] => [kv]
  | kv2 :: rest =>
      if strLe kv.1 kv2.1 then kv :: kv2 :: rest else kv2 :: insertByKey kv rest

/-- Insertion sort of rendered object fields by key (`sort_keys=True`). -/
def sortFieldsByKey : List (String × String) → List (String × String)
  | [] => []
  | kv :: rest => insertByKey kv (sortFieldsByKey rest)

mutual
/-- `json.dumps(j)`, with Python's default separators `", "` and `": "`;
`sk = true` gives `sort_keys=True` (object keys serialized in sorted order). -/
def dumps (sk : Bool) : Json → String
  | .null => "null"
  | .bool true => "true"
  | .bool false => "false"
  | .num n => toString n
  | .str s => jsonEscape s
  | .arr xs => "[" ++ String.intercalate ", " (dumpsList sk xs) ++ "]"
  | .obj kvs =>
      let items := dumpsFields sk kvs
      let items := if sk then sortFieldsByKey items else items
      "\x7b" ++ String.intercalate ", " (items.map Prod.snd) ++ "\x7d"

/-- Serialize each array element. -/
def dumpsList (sk : Bool) : List Json → List String
  | [] => []
  | x :: xs => dumps sk x :: dumpsList sk xs

/-- Serialize each object field to `(key, "key": value)`. -/
def dumpsFields (sk : Bool) : List (String × Json) → List (String × String)
  | [] => []
  | (k, v) :: xs => (k, jsonEscape k ++ ": " ++ dumps sk v) :: dumpsFields sk xs
end

/-- Python dict merge `{**a, **b}`: keys of `a` in order with values updated
from `b`, followed by the keys of `b` not present in `a`, in order. -/
def mergeDicts (a b : JDict) : JDict :=
  (a.map (fun kv =>
    ((b.find? (fun kv2 => kv2.1 = kv.1)).map (fun kv2 => (kv.1, kv2.2))).getD kv))
  ++ b.filter (fun kv2 => ¬ a.any (fun kv => kv.1 = kv2.1))

/- ## Job tracker (`app/services/job_service.py`) -/

namespace JobTracker

/-- One entry of the append-only `logs` array (`JobService._add_log`). -/
structure LogEntry where
  timestamp : Nat
  level : String
  message : String
deriving Repr, DecidableEq

/-- The mutable state of one `Job` row touched by `JobService`. Timestamps
are opaque `Nat`s supplied by the caller (`datetime.utcnow()`). -/
structure Job where
  job_type : String
  status : String
  progress : Int
  message : String
  result : Option JDict
  error : Option String
  logs : List LogEntry
  started_at : Option Nat
  completed_at : Option Nat

/-- `JobService._add_log`: append one entry to `logs`. -/
def addLog (j : Job) (message level : String) (now : Nat) : Job :=
  { j with logs := j.logs ++ [⟨now, level, message⟩] }

/-- `JobService.create_job`: fresh job in status `queued`. -/
def create_job (job_type : String) (metadata : Option JDict) : Job :=
  { job_type := job_type, status := "queued", progress := 0, message := "Job queued",
    result := metadata, error := none, logs := [], started_at := none, completed_at := none }

/-- `JobService.start_job`: mark the job running, reset progress to 0. -/
def start_job (j : Job) (now : Nat) : Job :=
  addLog { j with status := "running", started_at := some now, progress := 0,
                  message := "Job started" }
    "Job started" "info" now

/-- `JobService.update_progress`: clamp the given percent to `[0, 100]` and
store it; the message is replaced only when a truthy (non-empty) one is
given. -/
def update_progress (j : Job) (progress : Int) (message : Option String) : Job :=
  let j := { j with progress := min 100 (max 0 progress) }
  match message with
  | some m => if m = "" then j else { j with message := m }
  | none => j

/-- `JobService.complete_job`: mark completed, force progress to 100, merge
the result patch into the existing result dict when a truthy (non-empty) one
is given. -/
def complete_job (j : Job) (result : Option JDict) (now : Nat) : Job :=
  let j := { j with status := "completed", progress := 100, message := "Job completed",
                    completed_at := some now }
  let j := match result with
    | some r => if r.isEmpty then j else { j with result := some (mergeDicts (j.result.getD []) r) }
    | none => j
  addLog j "Job completed successfully" "info" now

/-- `JobService.fail_job`: mark failed and record the error. -/
def fail_job (j : Job) (error : String) (now : Nat) : Job :=
  let j := { j with status := "failed", error := some error,
                    message := "Job failed: " ++ error, completed_at := some now }
  addLog j ("Job failed: " ++ error) "error" now

/-- `JobService.cancel_job`: cancel a queued or running job; a job in any
other (terminal) status is returned unchanged. -/
def cancel_job (j : Job) (now : Nat) : Job :=
  if j.status = "queued" ∨ j.status = "running" then
    addLog { j with status := "cancelled", message := "Job cancelled",
                    completed_at := some now }
      "Job cancelled by user" "warn" now
  else
    j

end JobTracker

/- ## Event broadcaster (`app/lib/sse.py`) -/

namespace SSE

/-- `SSEMessage`: the dataclass fields that determine the wire encoding. -/
structure SSEMessage where
  data : JDict
  event : String := "message"
  id : Option String := none
  retry : Option Int := none

/-- Python truthiness of `Optional[str]` (`if self.id:`). -/
def truthyStr : Option String → Bool
  | some s => s ≠ ""
  | none => false

/-- Python truthiness of `Optional[int]` (`if self.retry:`). -/
def truthyInt : Option Int → Bool
  | some n => n ≠ 0
  | none => false

/-- `SSEMessage.encode`: optional `id` line, `event` line unless the event is
the default `"message"`, optional `retry` line, then the JSON `data` line,
terminated by a blank line. -/
def SSEMessage.encode (m : SSEMessage) : String :=
  let lines : List String :=
    (if truthyStr m.id then ["id: " ++ m.id.getD ""] else [])
    ++ (if m.event ≠ "message" then ["event: " ++ m.event] else [])
    ++ (if truthyInt m.retry then ["retry: " ++ toString (m.retry.getD 0)] else [])
    ++ ["data: " ++ dumps false (Json.obj m.data)]
  String.intercalate "\n" lines ++ "\n\n"

/-- The channel table of `SSEManager`: channel key to the set of subscriber
identities (the Python `Dict[str, Set[Subscriber]]`; subscribers are
identified here by an opaque `Nat`). -/
abbrev Channels := List (String × List Nat)

/-- Set insertion (`set.add`): no duplicate is created. -/
def setAdd (s : List Nat) (x : Nat) : List Nat :=
  if x ∈ s then s else s ++ [x]

/-- `SSEManager.subscribe`: `self._channels[channel].add(subscriber)`; the
`defaultdict` creates the entry (as an empty set) when absent, and the `add`
immediately populates it. -/
def subscribe (t : Channels) (channel : String) (sub : Nat) : Channels :=
  match t.find? (fun e => e.1 = channel) with
  | some _ => t.map (fun e => if e.1 = channel then (e.1, setAdd e.2 sub) else e)
  | none => t ++ [(channel, setAdd [] sub)]

/-- `SSEManager.unsubscribe`: discard the subscriber, then delete the channel
entry if its set is empty (the `defaultdict` access creates a transient empty
entry for an absent channel, which the cleanup immediately deletes). -/
def unsubscribe (t : Channels) (channel : String) (sub : Nat) : Channels :=
  let t := t.map (fun e => if e.1 = channel then (e.1, e.2.filter (fun x => x ≠ sub)) else e)
  t.filter (fun e => ¬ (e.1 = channel ∧ e.2 = []))

/-- `SSEManager.broadcast`: reads the channel set with `.get(channel, set())`
(creating nothing) and delivers to each subscriber; only the returned count is
observable on the table, which it leaves unchanged. -/
def broadcast (t : Channels) (channel : String) : Channels × Nat :=
  match t.find? (fun e => e.1 = channel) with
  | some e => (t, e.2.length)
  | none => (t, 0)

/-- One input consumed by one iteration of the `while True` loop of
`SSEManager.stream`: either a message arriving on the subscriber queue, or an
`asyncio.TimeoutError` after `ping_interval` seconds of silence. -/
inductive StreamInput where
  | msg (m : SSEMessage)
  | timeout

/-- The keep-alive message sent on timeout. -/
def pingMessage : SSEMessage := { data := [], event := "ping" }

/-- Terminal event check of `SSEManager.stream`. -/
def isTerminalEvent (e : String) : Bool :=
  e = "completed" ∨ e = "failed" ∨ e = "cancelled"

/-- The loop body of `SSEManager.stream`, driven by a finite trace of inputs:
each message is yielded (encoded) and ends the stream when its event is
terminal; each timeout yields a ping. An exhausted trace corresponds to a
generator still waiting. -/
def streamLoop : List StreamInput → List String
  | [] => []
  | .timeout :: rest => pingMessage.encode :: streamLoop rest
  | .msg m :: rest =>
      if isTerminalEvent m.event then [m.encode]
      else m.encode :: streamLoop rest

/-- `SSEManager.stream`: the initial message (when given) followed by the
loop output. -/
def stream (initial : Option SSEMessage) (inputs : List StreamInput) : List String :=
  (match initial with
   | some m => [m.encode]
   | none => []) ++ streamLoop inputs

/-- Whether one loop input immediately ends the stream. -/
def inputTerminal : StreamInput → Bool
  | .msg m => isTerminalEvent m.event
  | .timeout => false

/-- One operation on the broadcaster's channel table. -/
inductive ChanOp where
  | sub (channel : String) (subscriber : Nat)
  | unsub (channel : String) (subscriber : Nat)
  | bcast (channel : String)

/-- Apply one operation to the channel table (`broadcast` leaves it
unchanged; only its returned count is observable). -/
def applyOp (t : Channels) : ChanOp → Channels
  | .sub ch s => subscribe t ch s
  | .unsub ch s => unsubscribe t ch s
  | .bcast ch => (broadcast t ch).1

/-- The invariant of claim C10: every channel entry present in the table has
at least one subscriber. -/
def noEmptyChannels (t : Channels) : Prop := ∀ e ∈ t, e.2 ≠ []

instance : DecidablePred noEmptyChannels := fun t =>
  inferInstanceAs (Decidable (∀ e ∈ t, e.2 ≠ []))

/-- The streaming route `GET /jobs/{job_id}/stream`
(`app/features/jobs/routes.py`): for a job already in a terminal status it
returns a one-message response with the current state; otherwise it starts
`sse_manager.stream` with the current state as the initial message. -/
def stream_job (job : JobTracker.Job) (initialData : JDict) (inputs : List StreamInput) : List String :=
  let initial : SSEMessage := { data := initialData, event := "job_update", id := some "0" }
  if job.status = "completed" ∨ job.status = "failed" ∨ job.status = "cancelled" then
    [initial.encode]
  else
    stream (some initial) inputs

end SSE

/- ## SHA-256 (`hashlib.sha256`), FIPS 180-4, over byte lists -/

namespace SHA256

/-- 2^32, the word modulus. -/
def M32 : Nat := 4294967296

/-- Rotate a 32-bit word right by `n`. -/
def rotr (n x : Nat) : Nat := ((x >>> n) ||| (x <<< (32 - n))) % M32

/-- The 64 round constants. -/
def K : List Nat :=
  [1116352408, 1899447441, 3049323471, 3921009573, 961987163, 1508970993, 2453635748, 2870763221,
   3624381080, 310598401, 607225278, 1426881987, 1925078388, 2162078206, 2614888103, 3248222580,
   3835390401, 4022224774, 264347078, 604807628, 770255983, 1249150122, 1555081692, 1996064986,
   2554220882, 2821834349, 2952996808, 3210313671, 3336571891, 3584528711, 113926993, 338241895,
   666307205, 773529912, 1294757372, 1396182291, 1695183700, 1986661051, 2177026350, 2456956037,
   2730485921, 2820302411, 3259730800, 3345764771, 3516065817, 3600352804, 4094571909, 275423344,
   430227734, 506948616, 659060556, 883997877, 958139571, 1322822218, 1537002063, 1747873779,
   1955562222, 2024104815, 2227730452, 2361852424, 2428436474, 2756734187, 3204031479, 3329325298]

/-- The initial hash value. -/
def H0 : List Nat :=
  [1779033703, 3144134277, 1013904242, 2773480762, 1359893119, 2600822924, 528734635, 1541459225]

/-- Big-endian byte expansion of `v` into `n` bytes. -/
def bytesBE : Nat → Nat → List Nat
  | 0, _ => []
  | n + 1, v => bytesBE n (v / 256) ++ [v % 256]

/-- Message padding: `0x80`, zeros to 56 mod 64, then the 8-byte big-endian
bit length. -/
def pad (msg : List Nat) : List Nat :=
  let len := msg.length
  let zeros := (119 - len % 64) % 64
  msg ++ [128] ++ List.replicate zeros 0 ++ bytesBE 8 (len * 8)

/-- Group bytes into big-endian 32-bit words. -/
def toWords : List Nat → List Nat
  | b0 :: b1 :: b2 :: b3 :: rest => (((b0 * 256 + b1) * 256 + b2) * 256 + b3) :: toWords rest
  | _ => []

/-- Split into 64-byte blocks; the fuel is an upper bound on the number of
blocks (any list of length ≤ 64 * fuel is split completely). -/
def chunksF : Nat → List Nat → List (List Nat)
  | 0, _ => []
  | _, [] => []
  | f + 1, l => l.take 64 :: chunksF f (l.drop 64)

/-- σ₀ of the message schedule. -/
def smallSigma0 (x : Nat) : Nat := (rotr 7 x) ^^^ (rotr 18 x) ^^^ (x >>> 3)

/-- σ₁ of the message schedule. -/
def smallSigma1 (x : Nat) : Nat := (rotr 17 x) ^^^ (rotr 19 x) ^^^ (x >>> 10)

/-- Σ₀ of the compression function. -/
def bigSigma0 (x : Nat) : Nat := (rotr 2 x) ^^^ (rotr 13 x) ^^^ (rotr 22 x)

/-- Σ₁ of the compression function. -/
def bigSigma1 (x : Nat) : Nat := (rotr 6 x) ^^^ (rotr 11 x) ^^^ (rotr 25 x)

/-- Extend the 16-word schedule by `steps` further words. -/
def extendSchedule (w : List Nat) : Nat → List Nat
  | 0 => w
  | n + 1 =>
      let w := extendSchedule w n
      let t := w.length
      w ++ [(smallSigma1 (w.getD (t - 2) 0) + w.getD (t - 7) 0
             + smallSigma0 (w.getD (t - 15) 0) + w.getD (t - 16) 0) % M32]

/-- The state of the compression function. -/
structure Regs where
  a : Nat
  b : Nat
  c : Nat
  d : Nat
  e : Nat
  f : Nat
  g : Nat
  h : Nat

/-- One round of the compression function, consuming `(Kt, Wt)`. -/
def round (r : Regs) (kw : Nat × Nat) : Regs :=
  let t1 := (r.h + bigSigma1 r.e + ((r.e &&& r.f) ^^^ ((M32 - 1 - r.e) &&& r.g))
             + kw.1 + kw.2) % M32
  let t2 := (bigSigma0 r.a + ((r.a &&& r.b) ^^^ (r.a &&& r.c) ^^^ (r.b &&& r.c))) % M32
  ⟨(t1 + t2) % M32, r.a, r.b, r.c, (r.d + t1) % M32, r.e, r.f, r.g⟩

/-- Process one 64-byte block. -/
def processBlock (h : List Nat) (block : List Nat) : List Nat :=
  let w := extendSchedule (toWords block) 48
  let init : Regs := ⟨h.getD 0 0, h.getD 1 0, h.getD 2 0, h.getD 3 0,
                      h.getD 4 0, h.getD 5 0, h.getD 6 0, h.getD 7 0⟩
  let r := (K.zip w).foldl round init
  [(h.getD 0 0 + r.a) % M32, (h.getD 1 0 + r.b) % M32, (h.getD 2 0 + r.c) % M32,
   (h.getD 3 0 + r.d) % M32, (h.getD 4 0 + r.e) % M32, (h.getD 5 0 + r.f) % M32,
   (h.getD 6 0 + r.g) % M32, (h.getD 7 0 + r.h) % M32]

/-- Eight lowercase hex digits of one word. -/
def hex8 (n : Nat) : String := hex4 (n / 65536) ++ hex4 (n % 65536)

/-- `hashlib.sha256(msg).hexdigest()`. -/
def sha256_hex (msg : List Nat) : String :=
  let padded := pad msg
  let digest := (chunksF padded.length padded).foldl processBlock H0
  String.join (digest.map hex8)

end SHA256

/- ## Release manifest builder (`app/services/release_service.py`) -/

namespace ReleaseService

/-- The columns of an `overlays` row read by `build_manifest` (the rows as
retrieved from the database; `sort_order` defaults to 0 at the schema level
and is modelled non-null). -/
structure Overlay where
  ref : String
  overlay_type : String
  geometry : Json
  view_box : Option String
  label : Option Json
  label_position : Option Json
  props : Option Json
  source_level : Option String
  sort_order : Int

/-- `ReleaseOverlay` of `app/schemas/release.py`. -/
structure ReleaseOverlay where
  ref : String
  overlay_type : String
  geometry : Json
  label : Option Json
  label_position : Option Json
  props : Json
  layer : Option String
  sort_order : Int

/-- `ReleaseOverlay.model_dump()`: the dict of the schema's fields
(`json.dumps(..., sort_keys=True)` later sorts the keys, so their order here
is irrelevant). -/
def ReleaseOverlay.modelDump (o : ReleaseOverlay) : Json :=
  Json.obj [("ref", .str o.ref), ("overlay_type", .str o.overlay_type),
            ("geometry", o.geometry), ("label", o.label.getD .null),
            ("label_position", o.label_position.getD .null), ("props", o.props),
            ("layer", match o.layer with | some s => .str s | none => .null),
            ("sort_order", .num o.sort_order)]

/-- `ReleaseService._calculate_checksum`: SHA-256 of the canonical
(`sort_keys=True`) JSON of the overlay-dict list. The serialized string is
pure ASCII (`ensure_ascii=True`), so its UTF-8 bytes are its code points. -/
def calculate_checksum (data : List Json) : String :=
  "sha256:" ++ SHA256.sha256_hex ((dumps true (Json.arr data)).data.map Char.toNat)

/-- `TileConfig` of the manifest (`tiles` section). -/
structure TileCfg where
  base_url : String
  format : String
  tile_size : Nat
  overlap : Nat
  levels : Nat
  width : Nat
  height : Nat

/-- The fields read out of the `tiles_metadata` dict by `build_manifest`. -/
structure TileMeta where
  format : String := "webp"
  tile_size : Nat := 256
  overlap : Nat := 1
  levels : Nat := 1
  width : Nat := 4096
  height : Nat := 4096

/-- `ZoneManifestInfo`: reference from the project manifest to one zone
sub-manifest. -/
structure ZoneManifestInfo where
  zone_ref : String
  level : String
  manifest_path : String
  label : Option Json

/-- The manifest fields produced by `build_manifest` (config subfields other
than the view box are structurally copied from project configuration and are
collapsed here into the view box, the only one the builder computes). -/
structure ReleaseManifest where
  version : Nat
  release_id : String
  project_slug : String
  published_at : Nat
  published_by : String
  default_view_box : String
  tiles : Option TileCfg
  overlays : List ReleaseOverlay
  zones : List ZoneManifestInfo
  checksum : String

/-- Sort key of the overlay query `order_by(Overlay.sort_order, Overlay.ref)`:
lexicographic on `(sort_order, ref)`. -/
def overlayKey (o : Overlay) : Int ×ₗ String := toLex (o.sort_order, o.ref)

/-- The retrieval-order normalization performed by the query's `ORDER BY`. -/
def orderOverlays (l : List Overlay) : List Overlay :=
  l.insertionSort (fun a b => overlayKey a ≤ overlayKey b)

/-- Python truthiness of the optional `view_box` column (`if o.view_box:`). -/
def truthyViewBox (o : Overlay) : Option String :=
  match o.view_box with
  | some v => if v = "" then none else some v
  | none => none

/-- `ReleaseService.build_manifest`, as a function of the project's overlay
rows (in database retrieval order), the configured view box
(`map_settings.get("defaultViewBox")`), and the requested level: the query
orders the rows by `(sort_order, ref)`, the level filter keeps zones for the
project manifest and the level's non-zone overlays for a zone manifest, the
first truthy overlay view box overrides the frame of a zone manifest, and the
checksum is computed over the canonicalized overlay dicts. -/
def build_manifest (overlays : List Overlay) (cfgViewBox : Option String)
    (level : String) (release_id project_slug user_email : String)
    (published_at : Nat) (tiles_metadata : Option TileMeta) : ReleaseManifest :=
  let default_view_box := cfgViewBox.getD "0 0 4096 4096"
  let all_overlays := orderOverlays overlays
  let filtered_overlays :=
    if level = "project" then
      all_overlays.filter (fun o => o.overlay_type = "zone")
    else
      all_overlays.filter (fun o => o.source_level = some level ∧ o.overlay_type ≠ "zone")
  let zone_view_box : Option String :=
    if level ≠ "project" then (filtered_overlays.filterMap truthyViewBox).head?
    else none
  let view_box := match zone_view_box with
    | some v => v
    | none => default_view_box
  let release_overlays := filtered_overlays.map (fun o =>
    { ref := o.ref, overlay_type := o.overlay_type, geometry := o.geometry,
      label := o.label, label_position := o.label_position,
      props := o.props.getD (Json.obj []), layer := o.source_level,
      sort_order := o.sort_order : ReleaseOverlay })
  let tiles := tiles_metadata.map (fun m =>
    { base_url := "tiles/" ++ level, format := m.format, tile_size := m.tile_size,
      overlap := m.overlap, levels := m.levels, width := m.width,
      height := m.height : TileCfg })
  let checksum := calculate_checksum (release_overlays.map ReleaseOverlay.modelDump)
  { version := 3, release_id := release_id, project_slug := project_slug,
    published_at := published_at, published_by := user_email,
    default_view_box := view_box, tiles := tiles, overlays := release_overlays,
    zones := [], checksum := checksum }

/-- `ReleaseService.get_zone_levels`: the distinct truthy `source_level` tags
of non-zone overlays, excluding the sentinel `"project"`. -/
def get_zone_levels (overlays : List Overlay) : List String :=
  let levels := overlays.filterMap (fun o =>
    if o.overlay_type ≠ "zone" then
      match o.source_level with
      | some s => if s = "" ∨ s = "project" then none else some s
      | none => none
    else none)
  levels.foldl (fun acc s => if s ∈ acc then acc else acc ++ [s]) []

end ReleaseService

/- ## Publish orchestrator (`app/jobs/publish_job.py`) -/

namespace PublishJob

/-- The `project_versions` columns written by `mark_version_published`. -/
structure VersionRow where
  status : String
  release_id : Option String
  release_url : Option String
  published_by : Option String
  published_at : Option Nat
deriving Repr, DecidableEq

/-- The `projects` column written by `update_project_current_release`. -/
structure ProjectRow where
  current_release_id : Option String
deriving Repr, DecidableEq

/-- Object-store contents, modelled as the set (list) of keys present. -/
def putKey (st : List String) (key : String) : List String :=
  if key ∈ st then st else st ++ [key]

/-- Observable state threaded through a publish run: the job record, the two
database rows the claim is about, and the object store. -/
structure PubState where
  job : JobTracker.Job
  version : VersionRow
  project : ProjectRow
  storage : List String

/-- Apply a job-tracker operation to the job record of the state. -/
def upJob (s : PubState) (f : JobTracker.Job → JobTracker.Job) : PubState :=
  { s with job := f s.job }

/-- Outcomes of every external call a publish run makes, fixed up front: the
database reads (validation verdict, version lookup, overlay rows, build
lookup), the object-store listing/copy/upload results, and the generated
release id. A `false`/`none` outcome stands for the Python call raising or
returning a falsy value, exactly where the source distinguishes those. -/
structure PubEnv where
  valid : Bool
  errors : List String
  warnings : List String
  versionFound : Bool
  overlays : List ReleaseService.Overlay
  cfgViewBox : Option String
  buildPath : Option String
  buildTiles : List String
  listRaises : Bool
  copyOk : String → Bool
  tilesMeta : Option ReleaseService.TileMeta
  zoneTilesMeta : String → Option ReleaseService.TileMeta
  manifestOk : Bool
  uploadOk : String → Bool
  reuploadOk : Bool
  release_id : String
  project_slug : String
  user_email : String
  now : Nat

/-- Log every validation warning (`for warning in warnings: add_log(...)`). -/
def logWarnings (env : PubEnv) (s : PubState) : PubState :=
  env.warnings.foldl (fun s w =>
    upJob s (fun j => JobTracker.addLog j ("Warning: " ++ w) "warn" env.now)) s

/-- Key of one zone sub-manifest. -/
def zoneManifestKey (release_path z : String) : String :=
  release_path ++ "/zones/" ++ z ++ ".json"

/-- `storage.get_public_url`. -/
def publicUrl (key : String) : String := "https://storage.example/" ++ key

/-- The zone-manifest loop of `run_publish_job`: for each zone level with
content, build its manifest, upload it (`upload_file` may raise, aborting the
run), look up the matching zone overlay of the project manifest, and record a
`ZoneManifestInfo`. Returns the final state plus the collected zone infos and
upload count, or the state and exception message at an upload failure. -/
def publishZoneLoop (env : PubEnv) (release_path : String)
    (projectOverlays : List ReleaseService.ReleaseOverlay) :
    PubState → List String →
    Except (PubState × String) (PubState × List ReleaseService.ZoneManifestInfo × Nat)
  | s, [] => .ok (s, [], 0)
  | s, z :: rest =>
    let zm := ReleaseService.build_manifest env.overlays env.cfgViewBox z
      env.release_id env.project_slug env.user_email env.now (env.zoneTilesMeta z)
    if zm.overlays.isEmpty then
      publishZoneLoop env release_path projectOverlays s rest
    else
      let key := zoneManifestKey release_path z
      if env.uploadOk key then
        let s := { s with storage := putKey s.storage key }
        let zone_overlay := projectOverlays.find? (fun o =>
          o.overlay_type == "zone" &&
          (o.layer == some z || z.endsWith ("-" ++ o.ref) || z == o.ref))
        let zi : ReleaseService.ZoneManifestInfo :=
          { zone_ref := match zone_overlay with | some o => o.ref | none => z,
            level := z, manifest_path := "zones/" ++ z ++ ".json",
            label := zone_overlay.bind (fun o => o.label) }
        let s := upJob s (fun j =>
          JobTracker.addLog j ("Uploaded " ++ z ++ " manifest") "info" env.now)
        match publishZoneLoop env release_path projectOverlays s rest with
        | .ok (s', zis, n) => .ok (s', zi :: zis, n + 1)
        | .error e => .error e
      else
        .error (s, "upload failed: " ++ key)

/-- `run_publish_job`: validation, build lookup, tile copying (failures there
are caught and only logged), project and zone manifest build and upload (an
upload failure raises, is caught at the top level, fails the job and
re-raises), and only then the two database writes and job completion. The
returned `Except` is the Python return value or the re-raised exception. -/
def run_publish_job (env : PubEnv) (s0 : PubState) : PubState × Except String JDict :=
  let s := upJob s0 (fun j => JobTracker.start_job j env.now)
  let s := upJob s (fun j => JobTracker.update_progress j 5 (some "Validating version..."))
  if ¬ env.valid then
    let s := upJob s (fun j => JobTracker.fail_job j
      ("Validation failed: " ++ String.intercalate ", " env.errors) env.now)
    (s, .ok [("error", Json.arr (env.errors.map Json.str))])
  else
  let s := logWarnings env s
  let s := upJob s (fun j => JobTracker.update_progress j 8 (some "Finding build artifacts..."))
  if ¬ env.versionFound then
    let s := upJob s (fun j => JobTracker.fail_job j "Project or version not found" env.now)
    (s, .ok [("error", Json.str "Project or version not found")])
  else
  let s := if env.buildPath.isSome then
      upJob s (fun j => JobTracker.addLog j "Using build" "info" env.now)
    else
      upJob s (fun j =>
        JobTracker.addLog j "No build found, will check staging area" "warn" env.now)
  let s := upJob s (fun j => JobTracker.update_progress j 10 (some "Generating release ID..."))
  let release_path := "mp/" ++ env.project_slug ++ "/releases/" ++ env.release_id
  let s := upJob s (fun j => JobTracker.addLog j ("Release ID: " ++ env.release_id) "info" env.now)
  let s := upJob s (fun j =>
    JobTracker.update_progress j 20 (some "Copying tiles to release folder..."))
  let copyStep : PubState × Nat :=
    if env.listRaises then
      (upJob s (fun j => JobTracker.addLog j "Tile copy warning" "warn" env.now), 0)
    else if env.buildTiles.isEmpty then
      (upJob s (fun j => JobTracker.addLog j "No tiles in build" "warn" env.now), 0)
    else
      let copied := env.buildTiles.filter env.copyOk
      let s := { s with storage := (copied.foldl
        (fun st t => putKey st (release_path ++ "/tiles/" ++ t)) s.storage) }
      (upJob s (fun j =>
        JobTracker.addLog j ("Copied " ++ toString copied.length ++ " tiles") "info" env.now),
       copied.length)
  let s := copyStep.1
  let total_copied := copyStep.2
  let s := upJob s (fun j =>
    JobTracker.update_progress j 60 (some "Generating release manifests..."))
  if ¬ env.manifestOk then
    let s := upJob s (fun j => JobTracker.fail_job j "Failed to build release manifest" env.now)
    (s, .ok [("error", Json.str "Failed to build manifest")])
  else
  let manifest := ReleaseService.build_manifest env.overlays env.cfgViewBox "project"
    env.release_id env.project_slug env.user_email env.now env.tilesMeta
  let s := upJob s (fun j =>
    JobTracker.update_progress j 70 (some "Uploading project manifest..."))
  let manifest_key := release_path ++ "/release.json"
  if ¬ env.uploadOk manifest_key then
    let s := upJob s (fun j =>
      JobTracker.fail_job j ("upload failed: " ++ manifest_key) env.now)
    (s, .error ("upload failed: " ++ manifest_key))
  else
  let s := { s with storage := putKey s.storage manifest_key }
  let s := upJob s (fun j => JobTracker.addLog j "Uploaded project manifest" "info" env.now)
  let zone_levels := ReleaseService.get_zone_levels env.overlays
  let s :=
    if zone_levels.isEmpty then s
    else
      let s := upJob s (fun j => JobTracker.update_progress j 75
        (some "Generating zone manifests..."))
      upJob s (fun j => JobTracker.addLog j "Found zones with content" "info" env.now)
  match publishZoneLoop env release_path manifest.overlays s zone_levels with
  | .error (s', msg) =>
    let s' := upJob s' (fun j => JobTracker.fail_job j msg env.now)
    (s', .error msg)
  | .ok (s, zone_info_list, zone_manifests_uploaded) =>
    let step := if zone_info_list.isEmpty then some s
      else if env.reuploadOk then
        let s := { s with storage := putKey s.storage manifest_key }
        some (upJob s (fun j =>
          JobTracker.addLog j "Updated project manifest with zone references" "info" env.now))
      else none
    match step with
    | none =>
      let msg := "upload failed: " ++ manifest_key
      let s := upJob s (fun j => JobTracker.fail_job j msg env.now)
      (s, .error msg)
    | some s =>
      let s := upJob s (fun j => JobTracker.update_progress j 85 (some "Finalizing manifests..."))
      let release_url := publicUrl manifest_key
      let s := upJob s (fun j => JobTracker.addLog j ("Release URL: " ++ release_url) "info" env.now)
      let s := upJob s (fun j => JobTracker.update_progress j 90 (some "Updating database..."))
      let s := { s with version :=
        { status := "published", release_id := some env.release_id,
          release_url := some release_url, published_by := some env.user_email,
          published_at := some env.now } }
      let s := { s with project := { current_release_id := some env.release_id } }
      let s := upJob s (fun j => JobTracker.update_progress j 95 (some "Finalizing..."))
      let job_result : JDict :=
        [("release_id", .str env.release_id), ("release_url", .str release_url),
         ("zone_count", .num manifest.overlays.length),
         ("zone_levels", .arr (zone_levels.map Json.str)),
         ("zone_manifests_uploaded", .num zone_manifests_uploaded),
         ("checksum", .str manifest.checksum),
         ("tiles_copied", .num total_copied)]
      let s := upJob s (fun j => JobTracker.complete_job j (some job_result) env.now)
      (s, .ok job_result)

end PublishJob

/- ## Preview build orchestrator (`app/jobs/build_job.py`) -/

namespace BuildJob

/-- The `assets` columns used by `run_build_job`. -/
structure Asset where
  level : Option String
  storage_path : String

/-- The level key an asset's tiles are recorded under (`asset.level or
"project"`; the column is truthy-checked, so an empty level also falls back). -/
def Asset.levelKey (a : Asset) : String :=
  match a.level with
  | some s => if s = "" then "project" else s
  | none => "project"

/-- Tile metadata entry recorded for one processed asset (the dict returned
by `_generate_tiles_for_asset`). -/
structure TileMetaEntry where
  tiles_path : String
  width : Nat
  height : Nat
  levels : Nat
  tile_count : Nat
deriving Repr, DecidableEq

/-- State threaded through a build run: the job record and the object store
keys. -/
structure BuildState where
  job : JobTracker.Job
  storage : List String

/-- Apply a job-tracker operation to the job record. -/
def upJob (s : BuildState) (f : JobTracker.Job → JobTracker.Job) : BuildState :=
  { s with job := f s.job }

/-- Outcomes of the external calls of a build run. `tileOutcome i` is the
result of `_generate_tiles_for_asset` for the `i`-th asset: `none` means the
call raised (download, tiling or tile upload failed), `some m` that it
returned metadata `m`. -/
structure BuildEnv where
  versionFound : Bool
  versionStatus : String
  assets : List Asset
  tileOutcome : Nat → Option TileMetaEntry
  overlays : List ReleaseService.Overlay
  cfgViewBox : Option String
  manifestOk : Bool
  uploadManifestOk : Bool
  build_id : String
  project_slug : String
  user_email : String
  now : Nat

/-- Insert-or-replace into the `all_tiles_metadata` dict (Python dict
assignment `all_tiles_metadata[level] = tiles_metadata`). -/
def putMeta (d : List (String × TileMetaEntry)) (k : String) (v : TileMetaEntry) :
    List (String × TileMetaEntry) :=
  if d.any (fun e => e.1 = k) then d.map (fun e => if e.1 = k then (k, v) else e)
  else d ++ [(k, v)]

/-- The per-asset loop of `run_build_job`, threading the accumulated
`all_tiles_metadata` dict and `total_tile_count` exactly as the Python loop
does: tiling failure for one asset is logged at error level and skipped;
success records the metadata under the asset's level key and accumulates the
tile count. -/
def buildAssetLoop (env : BuildEnv) (total : Nat) :
    BuildState → Nat → List (String × TileMetaEntry) → Nat → List Asset →
    BuildState × List (String × TileMetaEntry) × Nat
  | s, _, d, c, [] => (s, d, c)
  | s, idx, d, c, a :: rest =>
    let level := a.levelKey
    let base : Int := 10 + (idx * 60) / total
    let s := upJob s (fun j => JobTracker.update_progress j base
      (some ("Processing base map: " ++ level)))
    match env.tileOutcome idx with
    | some m =>
      let s := upJob s (fun j => JobTracker.addLog j
        ("Generated " ++ toString m.tile_count ++ " tiles for level: " ++ level) "info" env.now)
      buildAssetLoop env total s (idx + 1) (putMeta d level m) (c + m.tile_count) rest
    | none =>
      let s := upJob s (fun j => JobTracker.addLog j
        ("Failed to generate tiles for " ++ level) "error" env.now)
      buildAssetLoop env total s (idx + 1) d c rest

/-- JSON rendering of one tile metadata entry, as stored in the job result. -/
def TileMetaEntry.toJson (m : TileMetaEntry) : Json :=
  Json.obj [("tiles_path", .str m.tiles_path), ("width", .num m.width),
            ("height", .num m.height), ("levels", .num m.levels),
            ("tile_count", .num m.tile_count)]

/-- `run_build_job`: validate, tile every base-map asset (skipping failed
ones), build and upload the preview manifest, and complete the job with the
collected tile metadata; a manifest upload failure raises, fails the job and
re-raises. -/
def run_build_job (env : BuildEnv) (s0 : BuildState) : BuildState × Except String JDict :=
  let s := upJob s0 (fun j => JobTracker.start_job j env.now)
  let s := upJob s (fun j => JobTracker.update_progress j 2 (some "Validating version..."))
  if ¬ env.versionFound then
    let s := upJob s (fun j => JobTracker.fail_job j "Project or version not found" env.now)
    (s, .ok [("error", Json.str "Project or version not found")])
  else
  if env.versionStatus ≠ "draft" then
    let s := upJob s (fun j => JobTracker.fail_job j
      ("Cannot build version with status: " ++ env.versionStatus) env.now)
    (s, .ok [("error", Json.str ("Cannot build version with status: " ++ env.versionStatus))])
  else
  let s := upJob s (fun j => JobTracker.update_progress j 5 (some "Finding base map assets..."))
  let s := if env.assets.isEmpty then
      upJob s (fun j => JobTracker.addLog j
        "No base map assets found, skipping tile generation" "warn" env.now)
    else s
  let s := upJob s (fun j => JobTracker.update_progress j 8 (some "Generating build ID..."))
  let build_path := "mp/" ++ env.project_slug ++ "/builds/" ++ env.build_id
  let s := upJob s (fun j => JobTracker.addLog j ("Build ID: " ++ env.build_id) "info" env.now)
  let s := if env.assets.isEmpty then s
    else upJob s (fun j => JobTracker.addLog j
      ("Found " ++ toString env.assets.length ++ " base map(s) to process") "info" env.now)
  let loopOut := buildAssetLoop env env.assets.length s 0 [] 0 env.assets
  let s := loopOut.1
  let all_tiles_metadata := loopOut.2.1
  let total_tile_count := loopOut.2.2
  let s := upJob s (fun j => JobTracker.update_progress j 75 (some "Generating build manifest..."))
  if ¬ env.manifestOk then
    let s := upJob s (fun j => JobTracker.fail_job j "Failed to build manifest" env.now)
    (s, .ok [("error", Json.str "Failed to build manifest")])
  else
  let primaryTiles : Option ReleaseService.TileMeta :=
    match all_tiles_metadata.find? (fun e => e.1 = "project") with
    | some e => some { format := "webp", tile_size := 256, overlap := 1,
                       levels := e.2.levels, width := e.2.width, height := e.2.height }
    | none => match all_tiles_metadata.head? with
      | some e => some { format := "webp", tile_size := 256, overlap := 1,
                         levels := e.2.levels, width := e.2.width, height := e.2.height }
      | none => none
  let manifest := ReleaseService.build_manifest env.overlays env.cfgViewBox "project"
    env.build_id env.project_slug env.user_email env.now primaryTiles
  let s := upJob s (fun j => JobTracker.update_progress j 85 (some "Uploading manifest..."))
  let manifest_key := build_path ++ "/release.json"
  if ¬ env.uploadManifestOk then
    let s := upJob s (fun j =>
      JobTracker.fail_job j ("upload failed: " ++ manifest_key) env.now)
    (s, .error ("upload failed: " ++ manifest_key))
  else
  let s := { s with storage := PublishJob.putKey s.storage manifest_key }
  let preview_url := PublishJob.publicUrl manifest_key
  let s := upJob s (fun j => JobTracker.addLog j ("Preview URL: " ++ preview_url) "info" env.now)
  let s := upJob s (fun j => JobTracker.update_progress j 95 (some "Finalizing..."))
  let job_result : JDict :=
    [("build_id", .str env.build_id), ("build_path", .str build_path),
     ("preview_url", .str preview_url),
     ("overlay_count", .num manifest.overlays.length),
     ("checksum", .str manifest.checksum),
     ("tiles", Json.obj
       [("levels", .arr (all_tiles_metadata.map (fun e => Json.str e.1))),
        ("total_count", .num total_tile_count),
        ("metadata", Json.obj (all_tiles_metadata.map (fun e => (e.1, e.2.toJson))))])]
  let s := upJob s (fun j => JobTracker.complete_job j (some job_result) env.now)
  (s, .ok job_result)

/-- Lookup in a result dict. -/
def JDict.get (d : JDict) (k : String) : Option Json :=
  (d.find? (fun kv => kv.1 = k)).map (fun kv => kv.2)

/-- Keys of a JSON object. -/
def Json.objKeys : Json → List String
  | .obj kvs => kvs.map (fun kv => kv.1)
  | _ => []

/-- The level keys recorded in a completed build job's result under
`result["tiles"]["metadata"]`. -/
def resultMetadataKeys (j : JobTracker.Job) : List String :=
  match j.result with
  | some d =>
    match JDict.get d "tiles" with
    | some (.obj tiles) =>
      match JDict.get tiles "metadata" with
      | some m => Json.objKeys m
      | none => []
    | _ => []
  | none => []

/-- Specification-side description of the level keys the asset loop records:
the level key of every asset, starting at index `idx`, whose tiling call
returns metadata rather than raising. -/
def expectedKeys (env : BuildEnv) : Nat → List Asset → List String
  | _, [] => []
  | idx, a :: rest =>
    match env.tileOutcome idx with
    | some _ => a.levelKey :: expectedKeys env (idx + 1) rest
    | none => expectedKeys env (idx + 1) rest

/-- A concrete two-asset build environment whose second asset's tiling call
raises, used to instantiate the partial-failure property. -/
def sampleEnv : BuildEnv :=
  { versionFound := true, versionStatus := "draft",
    assets := [⟨some "project", "maps/project.png"⟩, ⟨some "zone-a", "maps/zone-a.png"⟩],
    tileOutcome := fun i => if i = 1 then none
      else some ⟨"tiles/project/", 512, 512, 2, 5⟩,
    overlays := [], cfgViewBox := none, manifestOk := true, uploadManifestOk := true,
    build_id := "bld_20240101_a1b2c3d4", project_slug := "demo", user_email := "user@example.com",
    now := 0 }

/-- A fresh build-job state. -/
def sampleState : BuildState :=
  { job := JobTracker.create_job "build" none, storage := [] }

end BuildJob

namespace PublishJob

/-- A publish environment in which every external call succeeds. -/
def samplePubEnv : PubEnv :=
  { valid := true, errors := [], warnings := [], versionFound := true, overlays := [],
    cfgViewBox := none, buildPath := none, buildTiles := [], listRaises := false,
    copyOk := fun _ => true, tilesMeta := none, zoneTilesMeta := fun _ => none,
    manifestOk := true, uploadOk := fun _ => true, reuploadOk := true,
    release_id := "rel_20240101_a1b2c3d4", project_slug := "demo",
    user_email := "user@example.com", now := 0 }

/-- A publish starting state with a fresh job, a draft version and no current
release. -/
def samplePubState : PubState :=
  { job := JobTracker.create_job "publish" none,
    version := ⟨"draft", none, none, none, none⟩,
    project := ⟨none⟩, storage := [] }

end PublishJob

/- ## Theorems -/

/- ### Job tracker lemmas -/

namespace JobTracker

theorem update_progress_progress (j : Job) (p : Int) (m : Option String) :
    (update_progress j p m).progress = min 100 (max 0 p) := by
  cases m with
  | none => rfl
  | some s =>
    simp only [update_progress]
    split <;> rfl

theorem update_progress_status (j : Job) (p : Int) (m : Option String) :
    (update_progress j p m).status = j.status := by
  cases m with
  | none => rfl
  | some s =>
    simp only [update_progress]
    split <;> rfl

theorem scanl_update_progress (ps : List (Int × Option String)) :
    ∀ j : Job,
      ((ps.scanl (fun a q => update_progress a q.1 q.2) j).map (fun a => a.progress))
        = j.progress :: ps.map (fun q => min 100 (max 0 q.1)) := by
  induction ps with
  | nil => intro j; rfl
  | cons q ps ih =>
    intro j
    simp only [List.scanl, List.map, List.map_cons, ih, update_progress_progress]

theorem complete_job_progress (j : Job) (r : Option JDict) (now : Nat) :
    (complete_job j r now).progress = 100 := by
  cases r with
  | none => rfl
  | some d =>
    simp only [complete_job]
    split <;> rfl

theorem complete_job_status (j : Job) (r : Option JDict) (now : Nat) :
    (complete_job j r now).status = "completed" := by
  cases r with
  | none => rfl
  | some d =>
    simp only [complete_job]
    split <;> rfl

end JobTracker

/- ### Claim C1 -/

/-- C1, counterexample: `update_progress` records exactly the clamped argument
and never compares it with the previous value, so a running job given the call
sequence 50, 30 records the decreasing progress trace 0, 50, 30. -/
theorem claim_C1_counterexample :
    (JobTracker.start_job (JobTracker.create_job "publish" none) 0).status = "running"
    ∧ (JobTracker.update_progress
        (JobTracker.start_job (JobTracker.create_job "publish" none) 0) 50 none).status
        = "running"
    ∧ (JobTracker.update_progress
        (JobTracker.start_job (JobTracker.create_job "publish" none) 0) 50 none).progress = 50
    ∧ (JobTracker.update_progress (JobTracker.update_progress
        (JobTracker.start_job (JobTracker.create_job "publish" none) 0) 50 none) 30 none).progress
        = 30
    ∧ ¬ List.Chain' (· ≤ ·)
        ((([((50 : Int), (none : Option String)), (30, none)].scanl
            (fun a q => JobTracker.update_progress a q.1 q.2)
            (JobTracker.start_job (JobTracker.create_job "publish" none) 0)).map
          (fun a => a.progress))) := by
  refine ⟨rfl, rfl, rfl, rfl, ?_⟩
  intro h
  have e : (([((50 : Int), (none : Option String)), (30, none)].scanl
      (fun a q => JobTracker.update_progress a q.1 q.2)
      (JobTracker.start_job (JobTracker.create_job "publish" none) 0)).map
        (fun a => a.progress)) = [(0 : Int), 50, 30] := rfl
  rw [e] at h
  exact absurd (List.chain'_cons.mp (List.chain'_cons.mp h).2).1 (by omega)

/-- C1 (amended): the progress recorded by each `update_progress` call is the
argument clamped to `[0, 100]` (the service never compares with the previous
value), so the recorded trace is non-decreasing exactly when the clamped
arguments are; `update_progress` leaves the status untouched, `start_job`
resets progress to 0, and `complete_job` forces it to 100. -/
theorem claim_C1_progress_clamp (j : JobTracker.Job)
    (ps : List (Int × Option String)) (now : Nat) (r : Option JDict)
    (p : Int) (m : Option String) :
    ((ps.scanl (fun a q => JobTracker.update_progress a q.1 q.2) j).map (fun a => a.progress)
        = j.progress :: ps.map (fun q => min 100 (max 0 q.1)))
    ∧ (List.Chain' (· ≤ ·) (ps.map (fun q => min 100 (max 0 q.1))) →
        List.Chain' (· ≤ ·)
          (((ps.scanl (fun a q => JobTracker.update_progress a q.1 q.2) j).map
            (fun a => a.progress)).drop 1))
    ∧ (JobTracker.update_progress j p m).status = j.status
    ∧ (JobTracker.start_job j now).progress = 0
    ∧ (JobTracker.complete_job j r now).progress = 100 := by
  refine ⟨JobTracker.scanl_update_progress ps j, ?_, JobTracker.update_progress_status j p m,
    rfl, JobTracker.complete_job_progress j r now⟩
  intro h
  rw [JobTracker.scanl_update_progress ps j]
  simpa using h

/-- C1 witness: the amended theorem applied to a freshly started job and the
non-decreasing call sequence 10, 20. -/
theorem claim_C1_progress_clamp_witness :
    (([((10 : Int), (none : Option String)), (20, none)].scanl
        (fun a q => JobTracker.update_progress a q.1 q.2)
        (JobTracker.start_job (JobTracker.create_job "publish" none) 0)).map
      (fun a => a.progress)
        = (JobTracker.start_job (JobTracker.create_job "publish" none) 0).progress
            :: [((10 : Int), (none : Option String)), (20, none)].map
                (fun q => min 100 (max 0 q.1)))
    ∧ (List.Chain' (· ≤ ·)
        ([((10 : Int), (none : Option String)), (20, none)].map (fun q => min 100 (max 0 q.1))) →
        List.Chain' (· ≤ ·)
          ((([((10 : Int), (none : Option String)), (20, none)].scanl
              (fun a q => JobTracker.update_progress a q.1 q.2)
              (JobTracker.start_job (JobTracker.create_job "publish" none) 0)).map
            (fun a => a.progress)).drop 1))
    ∧ (JobTracker.update_progress (JobTracker.start_job (JobTracker.create_job "publish" none) 0)
        5 none).status = (JobTracker.start_job (JobTracker.create_job "publish" none) 0).status
    ∧ (JobTracker.start_job (JobTracker.start_job (JobTracker.create_job "publish" none) 0)
        1).progress = 0
    ∧ (JobTracker.complete_job (JobTracker.start_job (JobTracker.create_job "publish" none) 0)
        none 1).progress = 100 :=
  claim_C1_progress_clamp (JobTracker.start_job (JobTracker.create_job "publish" none) 0)
    [((10 : Int), (none : Option String)), (20, none)] 1 none 5 none

/- ### Claim C2 -/

/-- C2, counterexample: `complete_job` has no terminal-status guard — invoking
it on a job whose status is `failed` turns the status into `completed`. -/
theorem claim_C2_counterexample :
    (JobTracker.fail_job (JobTracker.start_job (JobTracker.create_job "publish" none) 0)
      "boom" 1).status = "failed"
    ∧ (JobTracker.complete_job
        (JobTracker.fail_job (JobTracker.start_job (JobTracker.create_job "publish" none) 0)
          "boom" 1) none 2).status = "completed"
    ∧ (JobTracker.complete_job
        (JobTracker.fail_job (JobTracker.start_job (JobTracker.create_job "publish" none) 0)
          "boom" 1) none 2).status
      ≠ (JobTracker.fail_job (JobTracker.start_job (JobTracker.create_job "publish" none) 0)
          "boom" 1).status := by
  refine ⟨rfl, rfl, ?_⟩
  decide

/-- C2 (amended): `complete_job` unconditionally sets the status of any job —
whatever its current status, including the terminal `failed` — to `completed`;
the service guards only `cancel_job` against terminal states, so a `complete`
call on a failed job does resurrect it to `completed`. -/
theorem claim_C2_complete_unguarded (j : JobTracker.Job) (r : Option JDict) (now : Nat) :
    (JobTracker.complete_job j r now).status = "completed"
    ∧ (j.status = "failed" → (JobTracker.complete_job j r now).status ≠ j.status) := by
  refine ⟨JobTracker.complete_job_status j r now, ?_⟩
  intro h
  rw [JobTracker.complete_job_status j r now, h]
  decide

/-- C2 witness: the amended theorem applied to a concrete failed job. -/
theorem claim_C2_complete_unguarded_witness :
    (JobTracker.complete_job
      (JobTracker.fail_job (JobTracker.create_job "publish" none) "boom" 0) none 1).status
      = "completed"
    ∧ ((JobTracker.fail_job (JobTracker.create_job "publish" none) "boom" 0).status = "failed" →
        (JobTracker.complete_job
          (JobTracker.fail_job (JobTracker.create_job "publish" none) "boom" 0) none 1).status
          ≠ (JobTracker.fail_job (JobTracker.create_job "publish" none) "boom" 0).status) :=
  claim_C2_complete_unguarded
    (JobTracker.fail_job (JobTracker.create_job "publish" none) "boom" 0) none 1

/- ### Claim C5 -/

/-- C5: cancelling a job in a terminal status (`completed`, `failed` or
`cancelled`) returns the job entirely unchanged and signals no error, while
cancelling a `queued` or `running` job sets its status to `cancelled` and
appends a log entry recording the cancellation. -/
theorem claim_C5_cancel_semantics (j : JobTracker.Job) (now : Nat) :
    ((j.status = "completed" ∨ j.status = "failed" ∨ j.status = "cancelled") →
      JobTracker.cancel_job j now = j)
    ∧ ((j.status = "queued" ∨ j.status = "running") →
      (JobTracker.cancel_job j now).status = "cancelled"
      ∧ (JobTracker.cancel_job j now).logs
          = j.logs ++ [⟨now, "warn", "Job cancelled by user"⟩]
      ∧ (JobTracker.cancel_job j now).message = "Job cancelled") := by
  constructor
  · intro h
    have hn : ¬ (j.status = "queued" ∨ j.status = "running") := by
      rcases h with h | h | h <;> rw [h] <;> decide
    simp [JobTracker.cancel_job, hn]
  · intro h
    simp [JobTracker.cancel_job, h, JobTracker.addLog]

/-- C5 witness: the theorem applied to a concrete completed job and to a
concrete running job. -/
theorem claim_C5_cancel_semantics_witness :
    JobTracker.cancel_job
        (JobTracker.complete_job (JobTracker.start_job (JobTracker.create_job "build" none) 0)
          none 1) 2
      = JobTracker.complete_job (JobTracker.start_job (JobTracker.create_job "build" none) 0)
          none 1
    ∧ (JobTracker.cancel_job (JobTracker.start_job (JobTracker.create_job "build" none) 0)
        2).status = "cancelled" :=
  ⟨(claim_C5_cancel_semantics
      (JobTracker.complete_job (JobTracker.start_job (JobTracker.create_job "build" none) 0)
        none 1) 2).1
    (Or.inl (JobTracker.complete_job_status _ none 1)),
   ((claim_C5_cancel_semantics (JobTracker.start_job (JobTracker.create_job "build" none) 0)
      2).2 (Or.inr rfl)).1⟩

/- ### Claim C8 -/

/-- C8: the stream first yields the initial message when one is given; a
timeout (no message within the ping interval) yields a keep-alive ping; a
message whose event is terminal (`completed`/`failed`/`cancelled`) is yielded
and ends the stream with no further output, whatever arrives afterwards; and
the route returns exactly one message — the current state — for a job already
terminal at subscribe time. -/
theorem claim_C8_stream_semantics :
    (∀ (im : SSE.SSEMessage) (inputs : List SSE.StreamInput),
      SSE.stream (some im) inputs = im.encode :: SSE.streamLoop inputs)
    ∧ (∀ rest, SSE.streamLoop (SSE.StreamInput.timeout :: rest)
        = SSE.pingMessage.encode :: SSE.streamLoop rest)
    ∧ (∀ (pre : List SSE.StreamInput) (m : SSE.SSEMessage)
        (rest rest' : List SSE.StreamInput),
        (∀ i ∈ pre, SSE.inputTerminal i = false) → SSE.isTerminalEvent m.event = true →
        SSE.streamLoop (pre ++ SSE.StreamInput.msg m :: rest)
            = SSE.streamLoop pre ++ [m.encode]
          ∧ SSE.streamLoop (pre ++ SSE.StreamInput.msg m :: rest)
            = SSE.streamLoop (pre ++ SSE.StreamInput.msg m :: rest'))
    ∧ (∀ (job : JobTracker.Job) (d : JDict) (inputs : List SSE.StreamInput),
        (job.status = "completed" ∨ job.status = "failed" ∨ job.status = "cancelled") →
        SSE.stream_job job d inputs
          = [SSE.SSEMessage.encode { data := d, event := "job_update", id := some "0" }]) := by
  have hterm : ∀ (pre : List SSE.StreamInput) (m : SSE.SSEMessage)
      (rest : List SSE.StreamInput),
      (∀ i ∈ pre, SSE.inputTerminal i = false) → SSE.isTerminalEvent m.event = true →
      SSE.streamLoop (pre ++ SSE.StreamInput.msg m :: rest)
        = SSE.streamLoop pre ++ [m.encode] := by
    intro pre
    induction pre with
    | nil =>
      intro m rest _ hm
      simp [SSE.streamLoop, hm]
    | cons i pre ih =>
      intro m rest hpre hm
      have hi : SSE.inputTerminal i = false := hpre i (List.mem_cons_self i pre)
      have hrest : ∀ x ∈ pre, SSE.inputTerminal x = false := fun x hx =>
        hpre x (List.mem_cons_of_mem i hx)
      cases i with
      | timeout =>
        simp only [List.cons_append, SSE.streamLoop]
        exact congrArg (List.cons SSE.pingMessage.encode) (ih m rest hrest hm)
      | msg m' =>
        have hm' : SSE.isTerminalEvent m'.event = false := hi
        simp only [List.cons_append, SSE.streamLoop, hm', Bool.false_eq_true, if_false]
        exact congrArg (List.cons m'.encode) (ih m rest hrest hm)
  refine ⟨fun im inputs => rfl, fun rest => rfl, ?_, ?_⟩
  · intro pre m rest rest' hpre hm
    exact ⟨hterm pre m rest hpre hm,
      (hterm pre m rest hpre hm).trans (hterm pre m rest' hpre hm).symm⟩
  · intro job d inputs h
    have : (job.status = "completed" ∨ job.status = "failed" ∨ job.status = "cancelled") := h
    simp [SSE.stream_job, this]

/-- C8 witness: the stream semantics at a concrete trace — one ping, one
non-terminal update, then a `failed` event followed by further (ignored)
inputs — and at a concrete already-completed job. -/
theorem claim_C8_stream_semantics_witness :
    (SSE.streamLoop ([SSE.StreamInput.timeout,
        SSE.StreamInput.msg { data := [], event := "job_update" }]
        ++ SSE.StreamInput.msg { data := [], event := "failed" }
          :: [SSE.StreamInput.timeout])
      = SSE.streamLoop [SSE.StreamInput.timeout,
          SSE.StreamInput.msg { data := [], event := "job_update" }]
        ++ [SSE.SSEMessage.encode { data := [], event := "failed" }])
    ∧ SSE.stream_job (JobTracker.complete_job (JobTracker.create_job "build" none) none 0)
        [] [SSE.StreamInput.timeout]
      = [SSE.SSEMessage.encode { data := [], event := "job_update", id := some "0" }] :=
  ⟨(claim_C8_stream_semantics.2.2.1 [SSE.StreamInput.timeout,
      SSE.StreamInput.msg { data := [], event := "job_update" }]
      { data := [], event := "failed" } [SSE.StreamInput.timeout] []
      (by decide) (by decide)).1,
   claim_C8_stream_semantics.2.2.2
     (JobTracker.complete_job (JobTracker.create_job "build" none) none 0) []
     [SSE.StreamInput.timeout]
     (Or.inl (JobTracker.complete_job_status _ none 0))⟩

/- ### Claim C10 -/

namespace SSE

theorem setAdd_ne_nil (s : List Nat) (x : Nat) : setAdd s x ≠ [] := by
  unfold setAdd
  split
  · intro h
    subst h
    simp_all
  · simp

theorem subscribe_noEmpty {t : Channels} (h : noEmptyChannels t) (ch : String) (sub : Nat) :
    noEmptyChannels (subscribe t ch sub) := by
  unfold subscribe
  cases t.find? (fun e => e.1 = ch) with
  | some e0 =>
    intro e he
    rcases List.mem_map.mp he with ⟨a, ha, rfl⟩
    split
    · exact setAdd_ne_nil _ _
    · exact h a ha
  | none =>
    intro e he
    rcases List.mem_append.mp he with ha | hb
    · exact h e ha
    · rcases List.mem_singleton.mp hb with rfl
      show setAdd [] sub ≠ []
      exact setAdd_ne_nil [] sub

theorem unsubscribe_noEmpty {t : Channels} (h : noEmptyChannels t) (ch : String) (sub : Nat) :
    noEmptyChannels (unsubscribe t ch sub) := by
  unfold unsubscribe
  intro e he
  have hf := List.mem_filter.mp he
  have hp : ¬ (e.1 = ch ∧ e.2 = []) := of_decide_eq_true hf.2
  rcases List.mem_map.mp hf.1 with ⟨a, ha, rfl⟩
  by_cases hc : a.1 = ch
  · rw [if_pos hc] at hp ⊢
    intro hnil
    exact hp ⟨hc, hnil⟩
  · rw [if_neg hc]
    exact h a ha

theorem broadcast_fst (t : Channels) (ch : String) : (broadcast t ch).1 = t := by
  unfold broadcast
  split <;> rfl

theorem applyOp_noEmpty {t : Channels} (h : noEmptyChannels t) (op : ChanOp) :
    noEmptyChannels (applyOp t op) := by
  cases op with
  | sub ch s => exact subscribe_noEmpty h ch s
  | unsub ch s => exact unsubscribe_noEmpty h ch s
  | bcast ch => rw [applyOp, broadcast_fst]; exact h

theorem foldl_applyOp_noEmpty (ops : List ChanOp) :
    ∀ {t : Channels}, noEmptyChannels t → noEmptyChannels (ops.foldl applyOp t) := by
  induction ops with
  | nil => intro t h; exact h
  | cons op ops ih => intro t h; exact ih (applyOp_noEmpty h op)

end SSE

/-- C10: the broadcaster's channel table never contains an entry with an empty
subscriber set — `subscribe` only populates, `unsubscribe` deletes an entry
when removing its last subscriber, `broadcast` creates nothing — so after any
sequence of operations from any table satisfying the invariant (in particular
from the empty initial table) every present channel maps to at least one
subscriber. -/
theorem claim_C10_no_empty_channels (ops : List SSE.ChanOp) (t0 : SSE.Channels)
    (h : SSE.noEmptyChannels t0) :
    SSE.noEmptyChannels (ops.foldl SSE.applyOp t0)
    ∧ SSE.noEmptyChannels (ops.foldl SSE.applyOp []) :=
  ⟨SSE.foldl_applyOp_noEmpty ops h,
   SSE.foldl_applyOp_noEmpty ops (by intro e he; cases he)⟩

/-- C10 witness: the invariant after a concrete operation sequence that
subscribes twice, unsubscribes both (emptying and deleting the channel), and
broadcasts to a missing channel. -/
theorem claim_C10_no_empty_channels_witness :
    SSE.noEmptyChannels
      ([SSE.ChanOp.sub "job:1" 1, SSE.ChanOp.sub "job:1" 2, SSE.ChanOp.unsub "job:1" 1,
        SSE.ChanOp.unsub "job:1" 2, SSE.ChanOp.bcast "job:2"].foldl SSE.applyOp
        [("job:9", [7])])
    ∧ SSE.noEmptyChannels
      ([SSE.ChanOp.sub "job:1" 1, SSE.ChanOp.sub "job:1" 2, SSE.ChanOp.unsub "job:1" 1,
        SSE.ChanOp.unsub "job:1" 2, SSE.ChanOp.bcast "job:2"].foldl SSE.applyOp []) :=
  claim_C10_no_empty_channels
    [SSE.ChanOp.sub "job:1" 1, SSE.ChanOp.sub "job:1" 2, SSE.ChanOp.unsub "job:1" 1,
      SSE.ChanOp.unsub "job:1" 2, SSE.ChanOp.bcast "job:2"]
    [("job:9", [7])] (by decide)

/- ### Tile pyramid lemmas -/

namespace TileService

theorem levelLoopF_fuel {T : Nat} : ∀ temp fuel fuel', temp ≤ fuel → temp ≤ fuel' →
    levelLoopF T fuel temp = levelLoopF T fuel' temp := by
  intro temp
  induction temp using Nat.strong_induction_on with
  | _ temp ih =>
    intro fuel fuel' h h'
    cases fuel with
    | zero =>
      have ht : temp = 0 := by omega
      subst ht
      cases fuel' with
      | zero => rfl
      | succ f' => simp [levelLoopF]
    | succ f =>
      cases fuel' with
      | zero =>
        have ht : temp = 0 := by omega
        subst ht
        simp [levelLoopF]
      | succ f' =>
        simp only [levelLoopF]
        by_cases hc : temp > T
        · simp only [if_pos hc]
          have ht2 : temp / 2 < temp := Nat.div_lt_self (by omega) (by omega)
          rw [ih (temp / 2) ht2 f f' (by omega) (by omega)]
        · simp [if_neg hc]

theorem levelLoop_eq (T temp : Nat) :
    levelLoop T temp = if temp > T then levelLoop T (temp / 2) + 1 else 0 := by
  unfold levelLoop
  by_cases h : temp > T
  · obtain ⟨t, rfl⟩ : ∃ t, temp = t + 1 := ⟨temp - 1, by omega⟩
    simp only [levelLoopF, if_pos h]
    congr 1
    exact levelLoopF_fuel _ _ _ (by omega) le_rfl
  · cases temp <;> simp [levelLoopF, h]

theorem levelLoop_spec (T : Nat) : ∀ m : Nat,
    m / 2 ^ levelLoop T m ≤ T ∧ ∀ j < levelLoop T m, T < m / 2 ^ j := by
  intro m
  induction m using Nat.strong_induction_on with
  | _ m ih =>
    rw [levelLoop_eq]
    by_cases h : m > T
    · simp only [if_pos h]
      have hm2 : m / 2 < m := Nat.div_lt_self (by omega) (by omega)
      obtain ⟨h1, h2⟩ := ih (m / 2) hm2
      constructor
      · have e : (2 : Nat) ^ (levelLoop T (m / 2) + 1) = 2 * 2 ^ levelLoop T (m / 2) := by
          rw [pow_succ]; ring
        rw [e, ← Nat.div_div_eq_div_mul]
        exact h1
      · intro j hj
        cases j with
        | zero => simpa using h
        | succ j' =>
          have hj' : j' < levelLoop T (m / 2) := by omega
          have e : (2 : Nat) ^ (j' + 1) = 2 * 2 ^ j' := by rw [pow_succ]; ring
          rw [e, ← Nat.div_div_eq_div_mul]
          exact h2 j' hj'
    · simp only [if_neg h]
      constructor
      · have := Nat.le_of_not_lt h
        simpa using this
      · intro j hj
        omega

theorem mustHalve_eq_levelLoop (T m : Nat) : mustHalve T m = levelLoop T m := by
  have hs := levelLoop_spec T m
  unfold mustHalve
  rw [Nat.find_eq_iff]
  exact ⟨hs.1, fun j hj => Nat.not_le.mpr (hs.2 j hj)⟩

theorem lt_ceilDiv_mul_lt {a b x : Nat} (ha : 1 ≤ a) (hb : 1 ≤ b) (hx : x < ceilDiv a b) :
    x * b < a := by
  unfold ceilDiv at hx
  have h1 : (x + 1) * b ≤ a + b - 1 := (Nat.le_div_iff_mul_le hb).mp hx
  have h2 : (x + 1) * b = x * b + b := by ring
  omega

theorem le_ceilDiv_mul {a b : Nat} (hb : 1 ≤ b) : a ≤ ceilDiv a b * b := by
  unfold ceilDiv
  have h := Nat.div_add_mod (a + b - 1) b
  have hm : (a + b - 1) % b < b := Nat.mod_lt _ (by omega)
  rw [Nat.mul_comm]
  omega

theorem ceilDiv_pos {a b : Nat} (ha : 1 ≤ a) (hb : 1 ≤ b) : 1 ≤ ceilDiv a b := by
  unfold ceilDiv
  have h : 1 * b ≤ a + b - 1 := by
    rw [Nat.one_mul]
    exact Nat.le_sub_one_of_lt (by omega)
  exact (Nat.le_div_iff_mul_le hb).mpr h

theorem ceilDiv_eq_one {a b : Nat} (ha : 1 ≤ a) (hab : a ≤ b) : ceilDiv a b = 1 := by
  have hb : 1 ≤ b := le_trans ha hab
  have h1 : (a + b - 1) / b < 2 := (Nat.div_lt_iff_lt_mul (by omega)).mpr (by omega)
  have h2 : 1 ≤ ceilDiv a b := ceilDiv_pos ha hb
  unfold ceilDiv at h2 ⊢
  omega

theorem tileAt_eq_some {T lw lh x y : Nat} (level : Nat) (hT : 1 ≤ T)
    (hx : x * T < lw) (hy : y * T < lh) :
    tileAt T lw lh level x y
      = some ⟨level, x, y, x * T, y * T, min (x * T + T) lw, min (y * T + T) lh⟩ := by
  unfold tileAt
  rw [if_neg]
  push_neg
  exact ⟨lt_min (by omega) hx, lt_min (by omega) hy⟩

theorem filterMap_eq_map_of_some {α β : Type} {f : α → Option β} {g : α → β} :
    ∀ l : List α, (∀ a ∈ l, f a = some (g a)) → l.filterMap f = l.map g := by
  intro l
  induction l with
  | nil => intro _; rfl
  | cons a l ih =>
    intro h
    rw [List.filterMap_cons, h a (List.mem_cons_self a l), List.map_cons,
      ih (fun b hb => h b (List.mem_cons_of_mem a hb))]

theorem rowTiles_eq_map {T lw lh : Nat} (level y : Nat) (hT : 1 ≤ T) (hlw : 1 ≤ lw)
    (hy : y * T < lh) :
    rowTiles T lw lh level y = (List.range (ceilDiv lw T)).map (fun x =>
      ⟨level, x, y, x * T, y * T, min (x * T + T) lw, min (y * T + T) lh⟩) := by
  unfold rowTiles
  exact filterMap_eq_map_of_some _ (fun x hx =>
    tileAt_eq_some level hT (lt_ceilDiv_mul_lt hlw hT (List.mem_range.mp hx)) hy)

theorem sum_min_width {lw T : Nat} (hT : 1 ≤ T) (hlw : 1 ≤ lw) :
    ∀ n, n ≤ ceilDiv lw T →
      ((List.range n).map (fun x => min (x * T + T) lw - x * T)).sum = min (n * T) lw := by
  intro n
  induction n with
  | zero => intro _; simp
  | succ n ih =>
    intro hn
    rw [List.range_succ, List.map_append, List.sum_append, ih (by omega)]
    simp only [List.map_cons, List.map_nil, List.sum_cons, List.sum_nil]
    have hnl : n * T < lw := lt_ceilDiv_mul_lt hlw hT (by omega)
    rw [Nat.min_eq_left (Nat.le_of_lt hnl)]
    have h1 : (n + 1) * T = n * T + T := by ring
    rw [h1]
    rcases le_total (n * T + T) lw with hcase | hcase
    · rw [Nat.min_eq_left hcase]
      omega
    · rw [Nat.min_eq_right hcase]
      omega

theorem row_width_cover {T lw lh : Nat} (level y : Nat) (hT : 1 ≤ T) (hlw : 1 ≤ lw)
    (hy : y * T < lh) :
    ((rowTiles T lw lh level y).map (fun t => t.right - t.left)).sum = lw := by
  rw [rowTiles_eq_map level y hT hlw hy, List.map_map]
  have e : ((fun t : Tile => t.right - t.left) ∘ (fun x : Nat =>
      (⟨level, x, y, x * T, y * T, min (x * T + T) lw, min (y * T + T) lh⟩ : Tile)))
      = fun x => min (x * T + T) lw - x * T := rfl
  rw [e, sum_min_width hT hlw (ceilDiv lw T) le_rfl,
    Nat.min_eq_right (le_ceilDiv_mul hT)]

theorem col_height_cover {T lw lh : Nat} (level x : Nat) (hT : 1 ≤ T) (hlh : 1 ≤ lh)
    (hx : x * T < lw) :
    (((List.range (ceilDiv lh T)).filterMap (fun y => tileAt T lw lh level x y)).map
      (fun t => t.bottom - t.top)).sum = lh := by
  have e : (List.range (ceilDiv lh T)).filterMap (fun y => tileAt T lw lh level x y)
      = (List.range (ceilDiv lh T)).map (fun y =>
        (⟨level, x, y, x * T, y * T, min (x * T + T) lw, min (y * T + T) lh⟩ : Tile)) :=
    filterMap_eq_map_of_some _ (fun y hy =>
      tileAt_eq_some level hT hx (lt_ceilDiv_mul_lt hlh hT (List.mem_range.mp hy)))
  rw [e, List.map_map]
  have e2 : ((fun t : Tile => t.bottom - t.top) ∘ (fun y : Nat =>
      (⟨level, x, y, x * T, y * T, min (x * T + T) lw, min (y * T + T) lh⟩ : Tile)))
      = fun y => min (y * T + T) lh - y * T := rfl
  rw [e2, sum_min_width hT hlh (ceilDiv lh T) le_rfl,
    Nat.min_eq_right (le_ceilDiv_mul hT)]

theorem levelTiles_length {T lw lh : Nat} (level : Nat) (hT : 1 ≤ T) (hlw : 1 ≤ lw)
    (hlh : 1 ≤ lh) :
    (levelTiles T lw lh level).length = ceilDiv lw T * ceilDiv lh T := by
  unfold levelTiles
  rw [List.length_flatMap]
  have hcongr : ∀ y ∈ List.range (ceilDiv lh T),
      (List.length ∘ fun y => rowTiles T lw lh level y) y = ceilDiv lw T := by
    intro y hy
    have hyT : y * T < lh := lt_ceilDiv_mul_lt hlh hT (List.mem_range.mp hy)
    simp only [Function.comp]
    rw [rowTiles_eq_map level y hT hlw hyT, List.length_map, List.length_range]
  rw [List.map_congr_left hcongr]
  have : List.map (fun _ => ceilDiv lw T) (List.range (ceilDiv lh T))
      = List.replicate (List.range (ceilDiv lh T)).length (ceilDiv lw T) :=
    List.map_const _ _
  rw [this, List.length_range, List.sum_replicate, smul_eq_mul, Nat.mul_comm]

theorem levelDim_pos (lvls L dim : Nat) : 1 ≤ levelDim lvls L dim := le_max_left 1 _

theorem generate_tiles_count {T w h : Nat} (hT : 1 ≤ T) :
    (generate_tiles T w h).2.length
      = ((List.range (numLevels T (max w h))).map (fun L =>
          ceilDiv (levelDim (numLevels T (max w h)) L w) T
            * ceilDiv (levelDim (numLevels T (max w h)) L h) T)).sum := by
  unfold generate_tiles
  simp only
  rw [List.length_flatMap]
  apply congrArg List.sum
  apply List.map_congr_left
  intro L hL
  simp only [Function.comp]
  exact levelTiles_length L hT (levelDim_pos _ _ _) (levelDim_pos _ _ _)

end TileService

/- ### Claim C6 -/

/-- C6: the generator produces `1 + (least number of halvings of
max(width, height) needed to reach ≤ tileSize)` levels; an image already
within one tile in both dimensions yields exactly one level with exactly one
tile; a 4096×4096 image at tile size 256 yields 5 levels whose smallest level
contains exactly one tile. -/
theorem claim_C6_level_count (T w h : Nat) (hT : 1 ≤ T) (hw : 1 ≤ w) (hh : 1 ≤ h) :
    ((TileService.generate_tiles T w h).1.levels
        = 1 + TileService.mustHalve T (max w h))
    ∧ (w ≤ T → h ≤ T →
        (TileService.generate_tiles T w h).1.levels = 1
        ∧ (TileService.generate_tiles T w h).1.tile_count = 1)
    ∧ (TileService.generate_tiles 256 4096 4096).1.levels = 5
    ∧ ((TileService.generate_tiles 256 4096 4096).2.filter
        (fun t => t.level = 0)).length = 1 := by
  refine ⟨?_, ?_, by decide, by decide⟩
  · show TileService.numLevels T (max w h) = 1 + TileService.mustHalve T (max w h)
    rw [TileService.mustHalve_eq_levelLoop]
    rfl
  · intro hwT hhT
    have hmax : ¬ (max w h > T) := by
      simp only [Nat.not_lt, Nat.max_le]
      exact ⟨hwT, hhT⟩
    have hlv : TileService.numLevels T (max w h) = 1 := by
      unfold TileService.numLevels
      rw [TileService.levelLoop_eq, if_neg hmax]
    constructor
    · exact hlv
    · show ((List.range (TileService.numLevels T (max w h))).flatMap (fun level =>
        TileService.levelTiles T (TileService.levelDim (TileService.numLevels T (max w h)) level w)
          (TileService.levelDim (TileService.numLevels T (max w h)) level h) level)).length = 1
      rw [hlv]
      have hr : List.range 1 = [0] := rfl
      rw [hr]
      have hfm : ([0].flatMap (fun level =>
          TileService.levelTiles T (TileService.levelDim 1 level w)
            (TileService.levelDim 1 level h) level))
          = TileService.levelTiles T (TileService.levelDim 1 0 w)
            (TileService.levelDim 1 0 h) 0 := by
        simp [List.flatMap]
      rw [hfm]
      have hdw : TileService.levelDim 1 0 w = w := by
        unfold TileService.levelDim
        simp [Nat.max_eq_right hw]
      have hdh : TileService.levelDim 1 0 h = h := by
        unfold TileService.levelDim
        simp [Nat.max_eq_right hh]
      rw [hdw, hdh, TileService.levelTiles_length 0 hT hw hh,
        TileService.ceilDiv_eq_one hw hwT, TileService.ceilDiv_eq_one hh hhT]

/-- C6 witness: the theorem applied at tile size 256 and a 100×80 degenerate
image (and the embedded 4096×4096 example). -/
theorem claim_C6_level_count_witness :
    ((TileService.generate_tiles 256 100 80).1.levels
        = 1 + TileService.mustHalve 256 (max 100 80))
    ∧ (100 ≤ 256 → 80 ≤ 256 →
        (TileService.generate_tiles 256 100 80).1.levels = 1
        ∧ (TileService.generate_tiles 256 100 80).1.tile_count = 1)
    ∧ (TileService.generate_tiles 256 4096 4096).1.levels = 5
    ∧ ((TileService.generate_tiles 256 4096 4096).2.filter
        (fun t => t.level = 0)).length = 1 :=
  claim_C6_level_count 256 100 80 (by decide) (by decide) (by decide)

/- ### Claim C7 -/

/-- C7: the generator produces exactly
`Σ_levels ceil(levelWidth / tileSize) * ceil(levelHeight / tileSize)` tiles
(with `levelWidth = max(1, width // 2^(levels-L-1))` and similarly for the
height), the reported `tile_count` equals that sum; within each level, every
grid row's tile widths sum to the level width and every grid column's tile
heights sum to the level height; and every tile lies inside the level image,
is non-empty and at most `tileSize` in each direction (no padding). -/
theorem claim_C7_tile_count_formula (T w h : Nat) (hT : 1 ≤ T) (hw : 1 ≤ w) (hh : 1 ≤ h) :
    ((TileService.generate_tiles T w h).1.tile_count
      = ((List.range ((TileService.generate_tiles T w h).1.levels)).map (fun L =>
          TileService.ceilDiv
              (TileService.levelDim ((TileService.generate_tiles T w h).1.levels) L w) T
            * TileService.ceilDiv
              (TileService.levelDim ((TileService.generate_tiles T w h).1.levels) L h) T)).sum)
    ∧ (TileService.generate_tiles T w h).2.length
        = (TileService.generate_tiles T w h).1.tile_count
    ∧ (∀ L, L < (TileService.generate_tiles T w h).1.levels →
        (∀ y, y < TileService.ceilDiv
            (TileService.levelDim ((TileService.generate_tiles T w h).1.levels) L h) T →
          ((TileService.rowTiles T
              (TileService.levelDim ((TileService.generate_tiles T w h).1.levels) L w)
              (TileService.levelDim ((TileService.generate_tiles T w h).1.levels) L h)
              L y).map (fun t => t.right - t.left)).sum
            = TileService.levelDim ((TileService.generate_tiles T w h).1.levels) L w)
        ∧ (∀ x, x < TileService.ceilDiv
            (TileService.levelDim ((TileService.generate_tiles T w h).1.levels) L w) T →
          (((List.range (TileService.ceilDiv
              (TileService.levelDim ((TileService.generate_tiles T w h).1.levels) L h) T)).filterMap
              (fun y => TileService.tileAt T
                (TileService.levelDim ((TileService.generate_tiles T w h).1.levels) L w)
                (TileService.levelDim ((TileService.generate_tiles T w h).1.levels) L h)
                L x y)).map (fun t => t.bottom - t.top)).sum
            = TileService.levelDim ((TileService.generate_tiles T w h).1.levels) L h))
    ∧ (∀ t ∈ (TileService.generate_tiles T w h).2,
        t.left < t.right ∧ t.top < t.bottom
        ∧ t.right ≤ TileService.levelDim ((TileService.generate_tiles T w h).1.levels) t.level w
        ∧ t.bottom ≤ TileService.levelDim ((TileService.generate_tiles T w h).1.levels) t.level h
        ∧ t.right - t.left ≤ T ∧ t.bottom - t.top ≤ T) := by
  have hlev : (TileService.generate_tiles T w h).1.levels
      = TileService.numLevels T (max w h) := rfl
  refine ⟨?_, rfl, ?_, ?_⟩
  · show (TileService.generate_tiles T w h).2.length = _
    rw [hlev]
    exact TileService.generate_tiles_count hT
  · intro L hL
    constructor
    · intro y hy
      rw [hlev] at hy ⊢
      exact TileService.row_width_cover L y hT (TileService.levelDim_pos _ _ _)
        (TileService.lt_ceilDiv_mul_lt (TileService.levelDim_pos _ _ _) hT hy)
    · intro x hx
      rw [hlev] at hx ⊢
      exact TileService.col_height_cover L x hT (TileService.levelDim_pos _ _ _)
        (TileService.lt_ceilDiv_mul_lt (TileService.levelDim_pos _ _ _) hT hx)
  · intro t ht
    rw [hlev]
    have ht' : t ∈ (List.range (TileService.numLevels T (max w h))).flatMap (fun level =>
        TileService.levelTiles T
          (TileService.levelDim (TileService.numLevels T (max w h)) level w)
          (TileService.levelDim (TileService.numLevels T (max w h)) level h) level) := ht
    rcases List.mem_flatMap.mp ht' with ⟨L, hLmem, htL⟩
    unfold TileService.levelTiles at htL
    rcases List.mem_flatMap.mp htL with ⟨y, hymem, hty⟩
    unfold TileService.rowTiles at hty
    rcases List.mem_filterMap.mp hty with ⟨x, hxmem, htx⟩
    simp only [TileService.tileAt] at htx
    split at htx
    · exact absurd htx (by simp)
    · rename_i hc
      push_neg at hc
      obtain ⟨hc1, hc2⟩ := hc
      have := Option.some.inj htx
      subst this
      simp only
      have hminw : min (x * T + T)
          (TileService.levelDim (TileService.numLevels T (max w h)) L w) ≤ x * T + T :=
        Nat.min_le_left _ _
      have hminw2 : min (x * T + T)
          (TileService.levelDim (TileService.numLevels T (max w h)) L w)
            ≤ TileService.levelDim (TileService.numLevels T (max w h)) L w :=
        Nat.min_le_right _ _
      have hminh : min (y * T + T)
          (TileService.levelDim (TileService.numLevels T (max w h)) L h) ≤ y * T + T :=
        Nat.min_le_left _ _
      have hminh2 : min (y * T + T)
          (TileService.levelDim (TileService.numLevels T (max w h)) L h)
            ≤ TileService.levelDim (TileService.numLevels T (max w h)) L h :=
        Nat.min_le_right _ _
      exact ⟨hc1, hc2, hminw2, hminh2, by omega, by omega⟩

/-- C7 witness: the formula at a concrete 5×3 image with tile size 2. -/
theorem claim_C7_tile_count_formula_witness :
    ((TileService.generate_tiles 2 5 3).1.tile_count
      = ((List.range ((TileService.generate_tiles 2 5 3).1.levels)).map (fun L =>
          TileService.ceilDiv
              (TileService.levelDim ((TileService.generate_tiles 2 5 3).1.levels) L 5) 2
            * TileService.ceilDiv
              (TileService.levelDim ((TileService.generate_tiles 2 5 3).1.levels) L 3) 2)).sum)
    ∧ (TileService.generate_tiles 2 5 3).2.length
        = (TileService.generate_tiles 2 5 3).1.tile_count :=
  ⟨(claim_C7_tile_count_formula 2 5 3 (by decide) (by decide) (by decide)).1,
   (claim_C7_tile_count_formula 2 5 3 (by decide) (by decide) (by decide)).2.1⟩

/- ### Claim C3 -/

namespace ReleaseService

theorem orderOverlays_eq_of_perm {l1 l2 : List Overlay} (h : l1.Perm l2)
    (hnd : (l1.map overlayKey).Nodup) : orderOverlays l1 = orderOverlays l2 := by
  haveI htot : IsTotal Overlay (fun a b => overlayKey a ≤ overlayKey b) :=
    ⟨fun a b => le_total (overlayKey a) (overlayKey b)⟩
  haveI htrans : IsTrans Overlay (fun a b => overlayKey a ≤ overlayKey b) :=
    ⟨fun a b c hab hbc => le_trans hab hbc⟩
  haveI hanti : IsAntisymm Overlay (fun a b => overlayKey a < overlayKey b) :=
    ⟨fun a b h1 h2 => absurd (lt_trans h1 h2) (lt_irrefl _)⟩
  have p1 : (orderOverlays l1).Perm l1 := List.perm_insertionSort _ l1
  have p2 : (orderOverlays l2).Perm l2 := List.perm_insertionSort _ l2
  have p : (orderOverlays l1).Perm (orderOverlays l2) := p1.trans (h.trans p2.symm)
  have s1 : List.Sorted (fun a b => overlayKey a ≤ overlayKey b) (orderOverlays l1) :=
    List.sorted_insertionSort _ l1
  have s2 : List.Sorted (fun a b => overlayKey a ≤ overlayKey b) (orderOverlays l2) :=
    List.sorted_insertionSort _ l2
  have hnd1 : ((orderOverlays l1).map overlayKey).Nodup :=
    (List.Perm.nodup_iff (p1.map overlayKey)).mpr hnd
  have hnd2 : ((orderOverlays l2).map overlayKey).Nodup := by
    have hnd2' : (l2.map overlayKey).Nodup := (List.Perm.nodup_iff (h.map overlayKey)).mp hnd
    exact (List.Perm.nodup_iff (p2.map overlayKey)).mpr hnd2'
  have strict : ∀ {l : List Overlay},
      List.Sorted (fun a b => overlayKey a ≤ overlayKey b) l →
      (l.map overlayKey).Nodup →
      List.Pairwise (fun a b => overlayKey a < overlayKey b) l := by
    intro l hs hn
    have hn' : List.Pairwise (fun a b => overlayKey a ≠ overlayKey b) l :=
      List.pairwise_map.mp hn
    exact (hs.and hn').imp (fun hab => lt_of_le_of_ne hab.1 hab.2)
  exact List.eq_of_perm_of_sorted p (strict s1 hnd1) (strict s2 hnd2)

theorem build_manifest_eq_of_perm {l1 l2 : List Overlay} (h : l1.Perm l2)
    (hnd : (l1.map overlayKey).Nodup) (cfgViewBox : Option String)
    (level release_id project_slug user_email : String) (published_at : Nat)
    (tm : Option TileMeta) :
    build_manifest l1 cfgViewBox level release_id project_slug user_email published_at tm
      = build_manifest l2 cfgViewBox level release_id project_slug user_email published_at tm := by
  unfold build_manifest
  rw [orderOverlays_eq_of_perm h hnd]

end ReleaseService

set_option maxRecDepth 8000 in
/-- C3, counterexample: two overlays with tied `(sort_order, ref)` keys — a
unit and a poi sharing ref `"a"` and the default sort order 0, which the
per-type uniqueness constraint `uq_overlay_ref` allows — both survive the
zone-level filter, the query's `ORDER BY (sort_order, ref)` does not pin
their relative order, and the two retrieval orders produce different
checksums. -/
theorem claim_C3_counterexample :
    (ReleaseService.build_manifest
      [⟨"a", "unit", Json.obj [], none, none, none, none, some "z", 0⟩,
       ⟨"a", "poi", Json.obj [], none, none, none, none, some "z", 0⟩]
      none "z" "rel_1" "slug" "u" 0 none).checksum
    ≠ (ReleaseService.build_manifest
      [⟨"a", "poi", Json.obj [], none, none, none, none, some "z", 0⟩,
       ⟨"a", "unit", Json.obj [], none, none, none, none, some "z", 0⟩]
      none "z" "rel_1" "slug" "u" 0 none).checksum := by
  have h1 : ReleaseService.orderOverlays
      [⟨"a", "unit", Json.obj [], none, none, none, none, some "z", 0⟩,
       ⟨"a", "poi", Json.obj [], none, none, none, none, some "z", 0⟩]
      = [⟨"a", "unit", Json.obj [], none, none, none, none, some "z", 0⟩,
         ⟨"a", "poi", Json.obj [], none, none, none, none, some "z", 0⟩] := by
    unfold ReleaseService.orderOverlays
    simp only [List.insertionSort, List.orderedInsert]
    rw [if_pos]
    exact le_of_eq rfl
  have h2 : ReleaseService.orderOverlays
      [⟨"a", "poi", Json.obj [], none, none, none, none, some "z", 0⟩,
       ⟨"a", "unit", Json.obj [], none, none, none, none, some "z", 0⟩]
      = [⟨"a", "poi", Json.obj [], none, none, none, none, some "z", 0⟩,
         ⟨"a", "unit", Json.obj [], none, none, none, none, some "z", 0⟩] := by
    unfold ReleaseService.orderOverlays
    simp only [List.insertionSort, List.orderedInsert]
    rw [if_pos]
    exact le_of_eq rfl
  unfold ReleaseService.build_manifest
  rw [h1, h2]
  decide

/-- C3 (amended): building the manifest from the same overlay set presented
in two different database retrieval orders yields the same checksum string
(indeed the same manifest) provided the overlays' `(sort_order, ref)` keys
are pairwise distinct: the builder's query orders rows by `(sort_order, ref)`
before filtering and hashing the canonical key-sorted JSON, so distinct keys
make the order — and hence the checksum — independent of retrieval order,
while tied keys (legal, since uniqueness is only per overlay type) leave it
retrieval-order dependent. -/
theorem claim_C3_checksum_deterministic {l1 l2 : List ReleaseService.Overlay}
    (h : l1.Perm l2) (hnd : (l1.map ReleaseService.overlayKey).Nodup)
    (cfgViewBox : Option String) (level release_id project_slug user_email : String)
    (published_at : Nat) (tm : Option ReleaseService.TileMeta) :
    (ReleaseService.build_manifest l1 cfgViewBox level release_id project_slug user_email
        published_at tm).checksum
      = (ReleaseService.build_manifest l2 cfgViewBox level release_id project_slug user_email
        published_at tm).checksum := by
  rw [ReleaseService.build_manifest_eq_of_perm h hnd cfgViewBox level release_id project_slug
    user_email published_at tm]

/-- C3 witness: two zone overlays retrieved in the two possible orders give
the same checksum. -/
theorem claim_C3_checksum_deterministic_witness :
    ([(⟨"a", "zone", Json.obj [], none, none, none, none, none, 0⟩ : ReleaseService.Overlay),
       ⟨"b", "zone", Json.obj [], none, none, none, none, none, 0⟩].Perm
      [⟨"b", "zone", Json.obj [], none, none, none, none, none, 0⟩,
       ⟨"a", "zone", Json.obj [], none, none, none, none, none, 0⟩])
    ∧ (ReleaseService.build_manifest
        [⟨"a", "zone", Json.obj [], none, none, none, none, none, 0⟩,
         ⟨"b", "zone", Json.obj [], none, none, none, none, none, 0⟩]
        none "project" "rel_1" "slug" "user@example.com" 0 none).checksum
      = (ReleaseService.build_manifest
        [⟨"b", "zone", Json.obj [], none, none, none, none, none, 0⟩,
         ⟨"a", "zone", Json.obj [], none, none, none, none, none, 0⟩]
        none "project" "rel_1" "slug" "user@example.com" 0 none).checksum := by
  have hperm : ([(⟨"a", "zone", Json.obj [], none, none, none, none, none, 0⟩ :
      ReleaseService.Overlay),
       ⟨"b", "zone", Json.obj [], none, none, none, none, none, 0⟩].Perm
      [⟨"b", "zone", Json.obj [], none, none, none, none, none, 0⟩,
       ⟨"a", "zone", Json.obj [], none, none, none, none, none, 0⟩]) :=
    List.Perm.swap _ _ _
  have hnd : (([(⟨"a", "zone", Json.obj [], none, none, none, none, none, 0⟩ :
      ReleaseService.Overlay),
       ⟨"b", "zone", Json.obj [], none, none, none, none, none, 0⟩]).map
      ReleaseService.overlayKey).Nodup := by
    simp only [List.map_cons, List.map_nil, List.nodup_cons, List.mem_singleton,
      List.not_mem_nil, not_false_iff, List.nodup_nil, and_true]
    intro hk
    have := toLex.injective hk
    simp [ReleaseService.overlayKey] at this
  exact ⟨hperm, claim_C3_checksum_deterministic hperm hnd none "project" "rel_1" "slug"
    "user@example.com" 0 none⟩

/- ### Claim C9 -/

namespace JobTracker

theorem addLog_result (j : Job) (m l : String) (now : Nat) :
    (addLog j m l now).result = j.result := rfl

theorem start_job_result (j : Job) (now : Nat) :
    (start_job j now).result = j.result := rfl

theorem update_progress_result (j : Job) (p : Int) (m : Option String) :
    (update_progress j p m).result = j.result := by
  cases m with
  | none => rfl
  | some s =>
    simp only [update_progress]
    split <;> rfl

theorem addLog_logs (j : Job) (m l : String) (now : Nat) :
    (addLog j m l now).logs = j.logs ++ [⟨now, l, m⟩] := rfl

theorem update_progress_logs (j : Job) (p : Int) (m : Option String) :
    (update_progress j p m).logs = j.logs := by
  cases m with
  | none => rfl
  | some s =>
    simp only [update_progress]
    split <;> rfl

theorem complete_job_logs (j : Job) (r : Option JDict) (now : Nat) :
    (complete_job j r now).logs
      = j.logs ++ [⟨now, "info", "Job completed successfully"⟩] := by
  cases r with
  | none => rfl
  | some d =>
    simp only [complete_job]
    split <;> rfl

end JobTracker

namespace BuildJob

theorem mergeDicts_nil_left (r : JDict) : mergeDicts [] r = r := by
  simp [mergeDicts]

theorem putMeta_keys {d : List (String × TileMetaEntry)} {k : String} {v : TileMetaEntry}
    (h : k ∉ d.map Prod.fst) :
    (putMeta d k v).map Prod.fst = d.map Prod.fst ++ [k] := by
  unfold putMeta
  have hfalse : ¬ (d.any (fun e => e.1 = k) = true) := by
    intro hany
    rcases List.any_eq_true.mp hany with ⟨e, he, hek⟩
    exact h (List.mem_map.mpr ⟨e, he, of_decide_eq_true hek⟩)
  rw [if_neg hfalse, List.map_append]
  rfl

theorem upJob_result (s : BuildState) (f : JobTracker.Job → JobTracker.Job) :
    (upJob s f).job = f s.job := rfl

theorem buildAssetLoop_result (env : BuildEnv) (total : Nat) :
    ∀ (assets : List Asset) (s : BuildState) (idx : Nat)
      (d : List (String × TileMetaEntry)) (c : Nat),
      ((buildAssetLoop env total s idx d c assets).1).job.result = s.job.result := by
  intro assets
  induction assets with
  | nil => intro s idx d c; rfl
  | cons a rest ih =>
    intro s idx d c
    simp only [buildAssetLoop]
    cases houtcome : env.tileOutcome idx with
    | some m =>
      rw [ih]
      simp [upJob, JobTracker.addLog_result, JobTracker.update_progress_result]
    | none =>
      rw [ih]
      simp [upJob, JobTracker.addLog_result, JobTracker.update_progress_result]

theorem buildAssetLoop_meta_keys (env : BuildEnv) (total : Nat) :
    ∀ (assets : List Asset) (s : BuildState) (idx : Nat)
      (d : List (String × TileMetaEntry)) (c : Nat),
      (∀ a ∈ assets, a.levelKey ∉ d.map Prod.fst) →
      (assets.map Asset.levelKey).Nodup →
      ((buildAssetLoop env total s idx d c assets).2.1).map Prod.fst
        = d.map Prod.fst ++ expectedKeys env idx assets := by
  intro assets
  induction assets with
  | nil =>
    intro s idx d c _ _
    simp [buildAssetLoop, expectedKeys]
  | cons a rest ih =>
    intro s idx d c hd hnd
    simp only [buildAssetLoop, expectedKeys]
    cases houtcome : env.tileOutcome idx with
    | some m =>
      have hka : a.levelKey ∉ d.map Prod.fst := hd a (List.mem_cons_self a rest)
      have hkeys := putMeta_keys (d := d) (k := a.levelKey) (v := m) hka
      have hd' : ∀ b ∈ rest, b.levelKey ∉ (putMeta d a.levelKey m).map Prod.fst := by
        intro b hb
        rw [hkeys]
        intro hmem
        rcases List.mem_append.mp hmem with hmem1 | hmem2
        · exact hd b (List.mem_cons_of_mem a hb) hmem1
        · have hba : b.levelKey = a.levelKey := List.mem_singleton.mp hmem2
          have := (List.nodup_cons.mp hnd).1
          exact this (hba ▸ List.mem_map.mpr ⟨b, hb, rfl⟩)
      rw [ih _ _ _ _ hd' (List.nodup_cons.mp hnd).2, hkeys, List.append_assoc,
        List.singleton_append]
    | none =>
      exact ih _ _ _ _ (fun b hb => hd b (List.mem_cons_of_mem a hb))
        (List.nodup_cons.mp hnd).2

theorem expectedKeys_of_fail (env : BuildEnv) (k : Nat) :
    ∀ (assets : List Asset) (idx : Nat),
      (∀ i, i < assets.length → (env.tileOutcome (idx + i) = none ↔ idx + i = k)) →
      expectedKeys env idx assets
        = ((assets.enumFrom idx).filter (fun p => p.1 ≠ k)).map (fun p => p.2.levelKey) := by
  intro assets
  induction assets with
  | nil => intro idx _; rfl
  | cons a rest ih =>
    intro idx h
    have h0 := h 0 (by simp)
    rw [Nat.add_zero] at h0
    simp only [expectedKeys, List.enumFrom]
    cases houtcome : env.tileOutcome idx with
    | some m =>
      have hik : ¬ idx = k := fun hk => by
        have := h0.mpr hk
        rw [houtcome] at this
        cases this
      have hrest : ∀ i, i < rest.length → (env.tileOutcome (idx + 1 + i) = none ↔ idx + 1 + i = k) := by
        intro i hi
        have := h (i + 1) (by simp; omega)
        rw [show idx + (i + 1) = idx + 1 + i by omega] at this
        exact this
      rw [List.filter_cons_of_pos (by simpa using hik), List.map_cons, ih (idx + 1) hrest]
    | none =>
      have hik : idx = k := h0.mp houtcome
      have hrest : ∀ i, i < rest.length → (env.tileOutcome (idx + 1 + i) = none ↔ idx + 1 + i = k) := by
        intro i hi
        have := h (i + 1) (by simp; omega)
        rw [show idx + (i + 1) = idx + 1 + i by omega] at this
        exact this
      rw [List.filter_cons_of_neg (by simpa using hik), ih (idx + 1) hrest]

end BuildJob

namespace BuildJob

theorem resultMetadataKeys_addLog (j : JobTracker.Job) (m l : String) (n : Nat) :
    resultMetadataKeys (JobTracker.addLog j m l n) = resultMetadataKeys j := rfl

theorem resultMetadataKeys_complete (j : JobTracker.Job) (now : Nat)
    (mdj : List (String × Json)) (v1 v2 v3 v4 v5 lv tcv : Json)
    (hj : j.result = none) :
    resultMetadataKeys (JobTracker.complete_job j (some
      [("build_id", v1), ("build_path", v2), ("preview_url", v3),
       ("overlay_count", v4), ("checksum", v5),
       ("tiles", Json.obj [("levels", lv), ("total_count", tcv),
                           ("metadata", Json.obj mdj)])]) now)
      = mdj.map Prod.fst := by
  have h1 : JobTracker.complete_job j (some
      [("build_id", v1), ("build_path", v2), ("preview_url", v3),
       ("overlay_count", v4), ("checksum", v5),
       ("tiles", Json.obj [("levels", lv), ("total_count", tcv),
                           ("metadata", Json.obj mdj)])]) now
      = JobTracker.addLog
        { j with status := "completed", progress := 100, message := "Job completed",
                 completed_at := some now,
                 result := some (mergeDicts (j.result.getD [])
                   [("build_id", v1), ("build_path", v2), ("preview_url", v3),
                    ("overlay_count", v4), ("checksum", v5),
                    ("tiles", Json.obj [("levels", lv), ("total_count", tcv),
                                        ("metadata", Json.obj mdj)])]) }
        "Job completed successfully" "info" now := rfl
  rw [h1, resultMetadataKeys_addLog, hj]
  rw [show (Option.getD (none : Option JDict) []) = [] from rfl, mergeDicts_nil_left]
  rfl

end BuildJob

namespace BuildJob

theorem resultMetadataKeys_complete_meta (j : JobTracker.Job) (now : Nat)
    (md : List (String × TileMetaEntry)) (v1 v2 v3 v4 v5 lv tcv : Json)
    (hj : j.result = none) :
    resultMetadataKeys (JobTracker.complete_job j (some
      [("build_id", v1), ("build_path", v2), ("preview_url", v3),
       ("overlay_count", v4), ("checksum", v5),
       ("tiles", Json.obj [("levels", lv), ("total_count", tcv),
                           ("metadata", Json.obj (md.map (fun e => (e.1, e.2.toJson))))])]) now)
      = md.map Prod.fst := by
  rw [resultMetadataKeys_complete j now (md.map (fun e => (e.1, e.2.toJson)))
    v1 v2 v3 v4 v5 lv tcv hj, List.map_map]
  exact List.map_congr_left (fun e _ => rfl)

end BuildJob

theorem find_decide_and_of_imp {α : Type} (p g : α → Bool) (l : List α)
    (h : ∀ x ∈ l, p x = true → g x = true) :
    List.find? (fun x => decide (g x = true ∧ p x = true)) l = List.find? p l := by
  induction l with
  | nil => rfl
  | cons x xs ih =>
    by_cases hp : p x = true
    · rw [List.find?_cons_of_pos _ (by simp [hp, h x (List.mem_cons_self x xs) hp]),
        List.find?_cons_of_pos _ hp]
    · rw [List.find?_cons_of_neg _ (by simp [hp]), List.find?_cons_of_neg _ hp]
      exact ih (fun y hy => h y (List.mem_cons_of_mem x hy))

namespace BuildJob

theorem JDict.get_mergeDicts (a b : JDict) (k : String) (v : Json)
    (h : JDict.get b k = some v) :
    JDict.get (mergeDicts a b) k = some v := by
  unfold JDict.get at h ⊢
  obtain ⟨bkv, hbf, hbv⟩ :
      ∃ bkv, b.find? (fun kv => kv.1 = k) = some bkv ∧ bkv.2 = v := by
    cases hf : b.find? (fun kv => kv.1 = k) with
    | none => rw [hf] at h; cases h
    | some x =>
      rw [hf] at h
      exact ⟨x, rfl, Option.some.inj h⟩
  unfold mergeDicts
  rw [List.find?_append, List.find?_map]
  have hcomp : ((fun kv : String × Json => decide (kv.1 = k)) ∘
      (fun kv : String × Json =>
        ((b.find? (fun kv2 => kv2.1 = kv.1)).map (fun kv2 => (kv.1, kv2.2))).getD kv))
      = (fun kv : String × Json => decide (kv.1 = k)) := by
    funext kv
    simp only [Function.comp]
    have hx : ∀ x : Option (String × Json),
        ((Option.map (fun kv2 => (kv.1, kv2.2)) x).getD kv).1 = kv.1 := by
      intro x
      cases x <;> rfl
    simp only [hx]
  rw [hcomp]
  cases haf : List.find? (fun kv : String × Json => decide (kv.1 = k)) a with
  | some akv =>
    have hpak := List.find?_some haf
    have hak : akv.1 = k := of_decide_eq_true hpak
    simp only [Option.map_some', Option.or, hak, hbf, Option.getD_some]
    exact congrArg some hbv
  | none =>
    simp only [Option.map_none', Option.or]
    rw [List.find?_filter]
    have himp : ∀ x ∈ b, (fun kv : String × Json => decide (kv.1 = k)) x = true →
        (fun kv2 : String × Json =>
          decide ¬(a.any (fun kv => kv.1 = kv2.1) = true)) x = true := by
      intro x _ hx
      have hxk : x.1 = k := of_decide_eq_true hx
      refine decide_eq_true ?_
      intro hany
      rcases List.any_eq_true.mp hany with ⟨kv, hkv, hkk⟩
      have hkvk : kv.1 = k := by rw [of_decide_eq_true hkk, hxk]
      exact (List.find?_eq_none.mp haf kv hkv) (decide_eq_true hkvk)
    rw [find_decide_and_of_imp _ _ _ himp, hbf]
    simp only [Option.map_some']
    rw [hbv]

theorem mem_putMeta_keys (d : List (String × TileMetaEntry)) (k : String) (v : TileMetaEntry) :
    k ∈ (putMeta d k v).map Prod.fst := by
  unfold putMeta
  by_cases hany : d.any (fun e => e.1 = k) = true
  · rw [if_pos hany]
    rcases List.any_eq_true.mp hany with ⟨e, he, hek⟩
    have hupd : (if e.1 = k then ((k, v) : String × TileMetaEntry) else e) = (k, v) :=
      if_pos (of_decide_eq_true hek)
    exact List.mem_map.mpr ⟨(k, v), List.mem_map.mpr ⟨e, he, hupd⟩, rfl⟩
  · rw [if_neg hany, List.map_append]
    exact List.mem_append_right _ (List.mem_singleton.mpr rfl)

theorem mem_putMeta_keys_of {d : List (String × TileMetaEntry)} {key : String}
    (k : String) (v : TileMetaEntry) (h : key ∈ d.map Prod.fst) :
    key ∈ (putMeta d k v).map Prod.fst := by
  unfold putMeta
  by_cases hany : d.any (fun e => e.1 = k) = true
  · rw [if_pos hany]
    rcases List.mem_map.mp h with ⟨e, he, hk⟩
    by_cases hek : e.1 = k
    · refine List.mem_map.mpr ⟨(k, v), List.mem_map.mpr ⟨e, he, if_pos hek⟩, ?_⟩
      rw [← hek]
      exact hk
    · exact List.mem_map.mpr ⟨e, List.mem_map.mpr ⟨e, he, if_neg hek⟩, hk⟩
  · rw [if_neg hany, List.map_append]
    exact List.mem_append_left _ h

theorem mem_putMeta_keys_elim {d : List (String × TileMetaEntry)} {key k : String}
    {v : TileMetaEntry} (h : key ∈ (putMeta d k v).map Prod.fst) :
    key = k ∨ key ∈ d.map Prod.fst := by
  unfold putMeta at h
  by_cases hany : d.any (fun e => e.1 = k) = true
  · rw [if_pos hany] at h
    rcases List.mem_map.mp h with ⟨e2, he2, hk2⟩
    rcases List.mem_map.mp he2 with ⟨e, he, hupd⟩
    have hupd' : (if e.1 = k then ((k, v) : String × TileMetaEntry) else e) = e2 := hupd
    by_cases hek : e.1 = k
    · rw [if_pos hek] at hupd'
      left
      rw [← hupd'] at hk2
      exact hk2.symm
    · rw [if_neg hek] at hupd'
      right
      exact List.mem_map.mpr ⟨e, he, by rw [hupd']; exact hk2⟩
  · rw [if_neg hany, List.map_append] at h
    rcases List.mem_append.mp h with h1 | h2
    · right; exact h1
    · left
      simpa using h2

theorem buildAssetLoop_keys_mono (env : BuildEnv) (total : Nat) :
    ∀ (assets : List Asset) (s : BuildState) (idx : Nat)
      (d : List (String × TileMetaEntry)) (c : Nat) {key : String},
      key ∈ d.map Prod.fst →
      key ∈ ((buildAssetLoop env total s idx d c assets).2.1).map Prod.fst := by
  intro assets
  induction assets with
  | nil => intro s idx d c key h; exact h
  | cons a rest ih =>
    intro s idx d c key h
    simp only [buildAssetLoop]
    cases houtcome : env.tileOutcome idx with
    | some m => exact ih _ _ _ _ (mem_putMeta_keys_of _ _ h)
    | none => exact ih _ _ _ _ h

theorem buildAssetLoop_keys_mem (env : BuildEnv) (total : Nat) :
    ∀ (assets : List Asset) (s : BuildState) (idx : Nat)
      (d : List (String × TileMetaEntry)) (c : Nat) (i : Nat),
      i < assets.length → env.tileOutcome (idx + i) ≠ none →
      (assets.getD i ⟨none, ""⟩).levelKey
        ∈ ((buildAssetLoop env total s idx d c assets).2.1).map Prod.fst := by
  intro assets
  induction assets with
  | nil => intro s idx d c i hi _; simp at hi
  | cons a rest ih =>
    intro s idx d c i hi hout
    simp only [buildAssetLoop]
    cases i with
    | zero =>
      rw [Nat.add_zero] at hout
      simp only [List.getD_cons_zero]
      cases houtcome : env.tileOutcome idx with
      | none => exact absurd houtcome hout
      | some m =>
        exact buildAssetLoop_keys_mono env total rest _ _ _ _ (mem_putMeta_keys _ _ _)
    | succ n =>
      have hn : n < rest.length := by simpa using hi
      have hout' : env.tileOutcome (idx + 1 + n) ≠ none := by
        rw [show idx + 1 + n = idx + (n + 1) by omega]
        exact hout
      simp only [List.getD_cons_succ]
      cases houtcome : env.tileOutcome idx with
      | some m => exact ih _ _ _ _ n hn hout'
      | none => exact ih _ _ _ _ n hn hout'

theorem buildAssetLoop_keys_sound (env : BuildEnv) (total : Nat) :
    ∀ (assets : List Asset) (s : BuildState) (idx : Nat)
      (d : List (String × TileMetaEntry)) (c : Nat) {key : String},
      key ∈ ((buildAssetLoop env total s idx d c assets).2.1).map Prod.fst →
      key ∈ d.map Prod.fst
      ∨ ∃ i, i < assets.length ∧ env.tileOutcome (idx + i) ≠ none
          ∧ key = (assets.getD i ⟨none, ""⟩).levelKey := by
  intro assets
  induction assets with
  | nil => intro s idx d c key h; exact Or.inl h
  | cons a rest ih =>
    intro s idx d c key h
    simp only [buildAssetLoop] at h
    cases houtcome : env.tileOutcome idx with
    | some m =>
      simp only [houtcome] at h
      rcases ih _ _ _ _ h with hin | ⟨i, hi, hne, hkey⟩
      · rcases mem_putMeta_keys_elim hin with hka | hind
        · right
          refine ⟨0, by simp, ?_, by simpa using hka⟩
          rw [Nat.add_zero, houtcome]
          exact fun hx => Option.noConfusion hx
        · left; exact hind
      · right
        refine ⟨i + 1, by simpa using hi, ?_, by simpa using hkey⟩
        rw [show idx + (i + 1) = idx + 1 + i by omega]
        exact hne
    | none =>
      simp only [houtcome] at h
      rcases ih _ _ _ _ h with hin | ⟨i, hi, hne, hkey⟩
      · left; exact hin
      · right
        refine ⟨i + 1, by simpa using hi, ?_, by simpa using hkey⟩
        rw [show idx + (i + 1) = idx + 1 + i by omega]
        exact hne

theorem buildAssetLoop_logs_mono (env : BuildEnv) (total : Nat) :
    ∀ (assets : List Asset) (s : BuildState) (idx : Nat)
      (d : List (String × TileMetaEntry)) (c : Nat) {e : JobTracker.LogEntry},
      e ∈ s.job.logs →
      e ∈ ((buildAssetLoop env total s idx d c assets).1).job.logs := by
  intro assets
  induction assets with
  | nil => intro s idx d c e h; exact h
  | cons a rest ih =>
    intro s idx d c e h
    simp only [buildAssetLoop]
    cases houtcome : env.tileOutcome idx with
    | some m =>
      apply ih
      simp only [upJob_result, JobTracker.addLog_logs, JobTracker.update_progress_logs]
      exact List.mem_append_left _ h
    | none =>
      apply ih
      simp only [upJob_result, JobTracker.addLog_logs, JobTracker.update_progress_logs]
      exact List.mem_append_left _ h

theorem buildAssetLoop_logs_err (env : BuildEnv) (total : Nat) :
    ∀ (assets : List Asset) (s : BuildState) (idx : Nat)
      (d : List (String × TileMetaEntry)) (c : Nat) (i : Nat),
      i < assets.length → env.tileOutcome (idx + i) = none →
      (⟨env.now, "error",
        "Failed to generate tiles for " ++ (assets.getD i ⟨none, ""⟩).levelKey⟩
        : JobTracker.LogEntry)
        ∈ ((buildAssetLoop env total s idx d c assets).1).job.logs := by
  intro assets
  induction assets with
  | nil => intro s idx d c i hi _; simp at hi
  | cons a rest ih =>
    intro s idx d c i hi hout
    simp only [buildAssetLoop]
    cases i with
    | zero =>
      rw [Nat.add_zero] at hout
      simp only [List.getD_cons_zero, hout]
      apply buildAssetLoop_logs_mono
      simp only [upJob_result, JobTracker.addLog_logs, JobTracker.update_progress_logs]
      exact List.mem_append_right _ (List.mem_singleton.mpr rfl)
    | succ n =>
      have hn : n < rest.length := by simpa using hi
      have hout' : env.tileOutcome (idx + 1 + n) = none := by
        rw [show idx + 1 + n = idx + (n + 1) by omega]
        exact hout
      simp only [List.getD_cons_succ]
      cases houtcome : env.tileOutcome idx with
      | some m => exact ih _ _ _ _ n hn hout'
      | none => exact ih _ _ _ _ n hn hout'

theorem mk_job (j : JobTracker.Job) (st : List String) :
    (BuildState.mk j st).job = j := rfl

theorem resultMetadataKeys_of_gets (j : JobTracker.Job) (d : JDict)
    (tiles : List (String × Json)) (m : Json) (hr : j.result = some d)
    (ht : JDict.get d "tiles" = some (Json.obj tiles))
    (hm : JDict.get tiles "metadata" = some m) :
    resultMetadataKeys j = Json.objKeys m := by
  simp only [resultMetadataKeys, hr, ht, hm]

theorem resultMetadataKeys_complete_any (j : JobTracker.Job) (now : Nat)
    (md : List (String × TileMetaEntry)) (v1 v2 v3 v4 v5 lv tcv : Json) :
    resultMetadataKeys (JobTracker.complete_job j (some
      [("build_id", v1), ("build_path", v2), ("preview_url", v3),
       ("overlay_count", v4), ("checksum", v5),
       ("tiles", Json.obj [("levels", lv), ("total_count", tcv),
                           ("metadata", Json.obj (md.map (fun e => (e.1, e.2.toJson))))])]) now)
      = md.map Prod.fst := by
  have hres : (JobTracker.complete_job j (some
      [("build_id", v1), ("build_path", v2), ("preview_url", v3),
       ("overlay_count", v4), ("checksum", v5),
       ("tiles", Json.obj [("levels", lv), ("total_count", tcv),
                           ("metadata", Json.obj (md.map (fun e => (e.1, e.2.toJson))))])]) now).result
      = some (mergeDicts (j.result.getD [])
          [("build_id", v1), ("build_path", v2), ("preview_url", v3),
           ("overlay_count", v4), ("checksum", v5),
           ("tiles", Json.obj [("levels", lv), ("total_count", tcv),
                               ("metadata", Json.obj (md.map (fun e => (e.1, e.2.toJson))))])]) := rfl
  have htiles : JDict.get (mergeDicts (j.result.getD [])
      [("build_id", v1), ("build_path", v2), ("preview_url", v3),
       ("overlay_count", v4), ("checksum", v5),
       ("tiles", Json.obj [("levels", lv), ("total_count", tcv),
                           ("metadata", Json.obj (md.map (fun e => (e.1, e.2.toJson))))])]) "tiles"
      = some (Json.obj [("levels", lv), ("total_count", tcv),
                        ("metadata", Json.obj (md.map (fun e => (e.1, e.2.toJson))))]) :=
    JDict.get_mergeDicts _ _ _ _ rfl
  rw [resultMetadataKeys_of_gets _ _ _ _ hres htiles rfl]
  simp only [Json.objKeys, List.map_map]
  exact List.map_congr_left (fun e _ => rfl)

end BuildJob

/-- C9: in the preview-build orchestrator, for every build environment in
which exactly asset `k` of the base-map list raises during tiling while
validation, manifest build and manifest upload succeed, and for every
starting job state: the failure is logged at error level (and the asset
skipped), the job still ends `completed`, the run returns a result (no
exception), and the final result's tile metadata contains the level key of
every asset other than `k` and nothing but level keys of such assets. -/
theorem claim_C9_partial_failure (env : BuildJob.BuildEnv) (s0 : BuildJob.BuildState) (k : Nat)
    (hfound : env.versionFound = true)
    (hdraft : env.versionStatus = "draft")
    (hman : env.manifestOk = true)
    (hup : env.uploadManifestOk = true)
    (hk : k < env.assets.length)
    (hfail : ∀ i, i < env.assets.length → (env.tileOutcome i = none ↔ i = k)) :
    (BuildJob.run_build_job env s0).1.job.status = "completed"
    ∧ (⟨env.now, "error", "Failed to generate tiles for "
          ++ (env.assets.getD k ⟨none, ""⟩).levelKey⟩ : JobTracker.LogEntry)
        ∈ (BuildJob.run_build_job env s0).1.job.logs
    ∧ (∀ i, i < env.assets.length → i ≠ k →
        (env.assets.getD i ⟨none, ""⟩).levelKey
          ∈ BuildJob.resultMetadataKeys (BuildJob.run_build_job env s0).1.job)
    ∧ (∀ key ∈ BuildJob.resultMetadataKeys (BuildJob.run_build_job env s0).1.job,
        ∃ i, i < env.assets.length ∧ i ≠ k
          ∧ key = (env.assets.getD i ⟨none, ""⟩).levelKey)
    ∧ ∃ d, (BuildJob.run_build_job env s0).2 = Except.ok d := by
  have hne : env.assets.isEmpty = false := by
    cases hassets : env.assets with
    | nil => rw [hassets] at hk; simp at hk
    | cons a r => rfl
  refine ⟨?_, ?_, ?_, ?_, ?_⟩
  · simp only [BuildJob.run_build_job, hfound, hdraft, hman, hup, hne, not_true_eq_false,
      ite_false, ne_eq, not_false_eq_true, ite_true, Bool.false_eq_true]
    exact JobTracker.complete_job_status _ _ _
  · simp only [BuildJob.run_build_job, hfound, hdraft, hman, hup, hne, not_true_eq_false,
      ite_false, ne_eq, not_false_eq_true, ite_true, Bool.false_eq_true]
    simp only [BuildJob.upJob_result, BuildJob.mk_job, JobTracker.complete_job_logs,
      JobTracker.addLog_logs, JobTracker.update_progress_logs, List.mem_append]
    left; left
    exact BuildJob.buildAssetLoop_logs_err env env.assets.length env.assets _ 0 [] 0 k hk
      (by rw [Nat.zero_add]; exact (hfail k hk).mpr rfl)
  · intro i hi hik
    simp only [BuildJob.run_build_job, hfound, hdraft, hman, hup, hne, not_true_eq_false,
      ite_false, ne_eq, not_false_eq_true, ite_true, Bool.false_eq_true]
    rw [BuildJob.upJob_result, BuildJob.resultMetadataKeys_complete_any]
    exact BuildJob.buildAssetLoop_keys_mem env env.assets.length env.assets _ 0 [] 0 i hi
      (by rw [Nat.zero_add]; exact fun hno => hik ((hfail i hi).mp hno))
  · intro key hkey
    simp only [BuildJob.run_build_job, hfound, hdraft, hman, hup, hne, not_true_eq_false,
      ite_false, ne_eq, not_false_eq_true, ite_true, Bool.false_eq_true] at hkey
    rw [BuildJob.upJob_result, BuildJob.resultMetadataKeys_complete_any] at hkey
    rcases BuildJob.buildAssetLoop_keys_sound env env.assets.length env.assets _ 0 [] 0 hkey
      with hnil | ⟨i, hi, hne', hkeq⟩
    · simp at hnil
    · refine ⟨i, hi, ?_, hkeq⟩
      intro hik
      rw [Nat.zero_add] at hne'
      exact hne' ((hfail i hi).mpr hik)
  · simp only [BuildJob.run_build_job, hfound, hdraft, hman, hup, hne, not_true_eq_false,
      ite_false, ne_eq, not_false_eq_true, ite_true, Bool.false_eq_true]
    exact ⟨_, rfl⟩

/-- C9 witness: the partial-failure property at a concrete two-asset build
whose second asset fails to tile. -/
theorem claim_C9_partial_failure_witness :
    (BuildJob.run_build_job BuildJob.sampleEnv BuildJob.sampleState).1.job.status = "completed"
    ∧ (⟨BuildJob.sampleEnv.now, "error", "Failed to generate tiles for "
          ++ (BuildJob.sampleEnv.assets.getD 1 ⟨none, ""⟩).levelKey⟩ : JobTracker.LogEntry)
        ∈ (BuildJob.run_build_job BuildJob.sampleEnv BuildJob.sampleState).1.job.logs
    ∧ (∀ i, i < BuildJob.sampleEnv.assets.length → i ≠ 1 →
        (BuildJob.sampleEnv.assets.getD i ⟨none, ""⟩).levelKey
          ∈ BuildJob.resultMetadataKeys
              (BuildJob.run_build_job BuildJob.sampleEnv BuildJob.sampleState).1.job)
    ∧ (∀ key ∈ BuildJob.resultMetadataKeys
          (BuildJob.run_build_job BuildJob.sampleEnv BuildJob.sampleState).1.job,
        ∃ i, i < BuildJob.sampleEnv.assets.length ∧ i ≠ 1
          ∧ key = (BuildJob.sampleEnv.assets.getD i ⟨none, ""⟩).levelKey)
    ∧ ∃ d, (BuildJob.run_build_job BuildJob.sampleEnv BuildJob.sampleState).2 = Except.ok d :=
  claim_C9_partial_failure BuildJob.sampleEnv BuildJob.sampleState 1 rfl rfl rfl rfl
    (by decide) (by decide)

/- ### Claim C4 -/

namespace PublishJob

theorem upJob_version (s : PubState) (f : JobTracker.Job → JobTracker.Job) :
    (upJob s f).version = s.version := rfl

theorem upJob_project (s : PubState) (f : JobTracker.Job → JobTracker.Job) :
    (upJob s f).project = s.project := rfl

theorem upJob_job (s : PubState) (f : JobTracker.Job → JobTracker.Job) :
    (upJob s f).job = f s.job := rfl

theorem logWarnings_fields (env : PubEnv) : ∀ s : PubState,
    (logWarnings env s).version = s.version ∧ (logWarnings env s).project = s.project := by
  unfold logWarnings
  generalize env.warnings = ws
  induction ws with
  | nil => intro s; exact ⟨rfl, rfl⟩
  | cons w ws ih =>
    intro s
    simp only [List.foldl_cons]
    exact ih _

theorem publishZoneLoop_state (env : PubEnv) (rp : String)
    (po : List ReleaseService.ReleaseOverlay) :
    ∀ (zs : List String) (s : PubState),
      (∀ s' zis n, publishZoneLoop env rp po s zs = .ok (s', zis, n) →
        s'.version = s.version ∧ s'.project = s.project)
      ∧ (∀ s' msg, publishZoneLoop env rp po s zs = .error (s', msg) →
        s'.version = s.version ∧ s'.project = s.project) := by
  intro zs
  induction zs with
  | nil =>
    intro s
    constructor
    · intro s' zis n h
      simp only [publishZoneLoop] at h
      injection h with h2
      simp only [Prod.mk.injEq] at h2
      obtain ⟨h3, _, _⟩ := h2
      subst h3
      exact ⟨rfl, rfl⟩
    · intro s' msg h
      simp only [publishZoneLoop] at h
      exact Except.noConfusion h
  | cons z rest ih =>
    intro s
    constructor
    · intro s' zis n h
      simp only [publishZoneLoop] at h
      by_cases hover : (ReleaseService.build_manifest env.overlays env.cfgViewBox z
          env.release_id env.project_slug env.user_email env.now
          (env.zoneTilesMeta z)).overlays.isEmpty = true
      · rw [if_pos hover] at h
        exact (ih s).1 s' zis n h
      · rw [if_neg hover] at h
        by_cases hup : env.uploadOk (zoneManifestKey rp z) = true
        · rw [if_pos hup] at h
          cases hrec : publishZoneLoop env rp po
              (upJob { s with storage := putKey s.storage (zoneManifestKey rp z) }
                (fun j => JobTracker.addLog j ("Uploaded " ++ z ++ " manifest") "info" env.now))
              rest with
          | ok r =>
            obtain ⟨r1, r2, r3⟩ := r
            rw [hrec] at h
            injection h with h2
            simp only [Prod.mk.injEq] at h2
            obtain ⟨h3, _, _⟩ := h2
            subst h3
            exact (ih (upJob { s with storage := putKey s.storage (zoneManifestKey rp z) }
              (fun j => JobTracker.addLog j ("Uploaded " ++ z ++ " manifest") "info"
                env.now))).1 r1 r2 r3 hrec
          | error e =>
            obtain ⟨e1, e2⟩ := e
            rw [hrec] at h
            exact Except.noConfusion h
        · rw [if_neg hup] at h
          exact Except.noConfusion h
    · intro s' msg h
      simp only [publishZoneLoop] at h
      by_cases hover : (ReleaseService.build_manifest env.overlays env.cfgViewBox z
          env.release_id env.project_slug env.user_email env.now
          (env.zoneTilesMeta z)).overlays.isEmpty = true
      · rw [if_pos hover] at h
        exact (ih s).2 s' msg h
      · rw [if_neg hover] at h
        by_cases hup : env.uploadOk (zoneManifestKey rp z) = true
        · rw [if_pos hup] at h
          cases hrec : publishZoneLoop env rp po
              (upJob { s with storage := putKey s.storage (zoneManifestKey rp z) }
                (fun j => JobTracker.addLog j ("Uploaded " ++ z ++ " manifest") "info" env.now))
              rest with
          | ok r =>
            obtain ⟨r1, r2, r3⟩ := r
            rw [hrec] at h
            exact Except.noConfusion h
          | error e =>
            obtain ⟨e1, e2⟩ := e
            rw [hrec] at h
            injection h with h2
            simp only [Prod.mk.injEq] at h2
            obtain ⟨h3, h4⟩ := h2
            subst h3
            exact (ih (upJob { s with storage := putKey s.storage (zoneManifestKey rp z) }
              (fun j => JobTracker.addLog j ("Uploaded " ++ z ++ " manifest") "info"
                env.now))).2 e1 e2 hrec
        · rw [if_neg hup] at h
          injection h with h2
          simp only [Prod.mk.injEq] at h2
          obtain ⟨h3, _⟩ := h2
          subst h3
          exact ⟨rfl, rfl⟩

theorem publishZoneLoop_uploads (env : PubEnv) (rp : String)
    (po : List ReleaseService.ReleaseOverlay) :
    ∀ (zs : List String) (s : PubState) (s' : PubState)
      (zis : List ReleaseService.ZoneManifestInfo) (n : Nat),
      publishZoneLoop env rp po s zs = .ok (s', zis, n) →
      ∀ z ∈ zs,
        ¬ (ReleaseService.build_manifest env.overlays env.cfgViewBox z env.release_id
            env.project_slug env.user_email env.now (env.zoneTilesMeta z)).overlays.isEmpty
            = true →
        env.uploadOk (zoneManifestKey rp z) = true := by
  intro zs
  induction zs with
  | nil =>
    intro s s' zis n _ z hz
    exact absurd hz (List.not_mem_nil z)
  | cons z0 rest ih =>
    intro s s' zis n h z hz hne
    simp only [publishZoneLoop] at h
    by_cases hover : (ReleaseService.build_manifest env.overlays env.cfgViewBox z0
        env.release_id env.project_slug env.user_email env.now
        (env.zoneTilesMeta z0)).overlays.isEmpty = true
    · rw [if_pos hover] at h
      rcases List.mem_cons.mp hz with rfl | hz'
      · exact absurd hover hne
      · exact ih s s' zis n h z hz' hne
    · rw [if_neg hover] at h
      by_cases hup : env.uploadOk (zoneManifestKey rp z0) = true
      · rw [if_pos hup] at h
        cases hrec : publishZoneLoop env rp po
            (upJob { s with storage := putKey s.storage (zoneManifestKey rp z0) }
              (fun j => JobTracker.addLog j ("Uploaded " ++ z0 ++ " manifest") "info" env.now))
            rest with
        | ok r =>
          obtain ⟨r1, r2, r3⟩ := r
          rcases List.mem_cons.mp hz with rfl | hz'
          · exact hup
          · exact ih _ r1 r2 r3 hrec z hz' hne
        | error e =>
          obtain ⟨e1, e2⟩ := e
          rw [hrec] at h
          exact Except.noConfusion h
      · rw [if_neg hup] at h
        exact Except.noConfusion h

end PublishJob

namespace JobTracker

theorem fail_job_status (j : Job) (e : String) (now : Nat) :
    (fail_job j e now).status = "failed" := rfl

end JobTracker

namespace PublishJob

theorem ite_version (c : Prop) [Decidable c] (a b : PubState) :
    (if c then a else b).version = if c then a.version else b.version := by
  split <;> rfl

theorem ite_project (c : Prop) [Decidable c] (a b : PubState) :
    (if c then a else b).project = if c then a.project else b.project := by
  split <;> rfl

end PublishJob

namespace PublishJob

theorem logWarnings_version (env : PubEnv) (s : PubState) :
    (logWarnings env s).version = s.version := (logWarnings_fields env s).1

theorem logWarnings_project (env : PubEnv) (s : PubState) :
    (logWarnings env s).project = s.project := (logWarnings_fields env s).2

theorem ite_fst {α β : Type} (c : Prop) [Decidable c] (p q : α × β) :
    (if c then p else q).1 = if c then p.1 else q.1 := by
  split <;> rfl

end PublishJob

theorem run_publish_cases (env : PublishJob.PubEnv) (s0 : PublishJob.PubState) :
    ((PublishJob.run_publish_job env s0).1.version = s0.version
      ∧ (PublishJob.run_publish_job env s0).1.project = s0.project
      ∧ (PublishJob.run_publish_job env s0).1.job.status = "failed")
    ∨ ((PublishJob.run_publish_job env s0).1.job.status = "completed"
      ∧ (∃ d, (PublishJob.run_publish_job env s0).2 = Except.ok d)
      ∧ env.uploadOk ("mp/" ++ env.project_slug ++ "/releases/" ++ env.release_id
          ++ "/release.json") = true
      ∧ (∀ z ∈ ReleaseService.get_zone_levels env.overlays,
          ¬ (ReleaseService.build_manifest env.overlays env.cfgViewBox z env.release_id
              env.project_slug env.user_email env.now
              (env.zoneTilesMeta z)).overlays.isEmpty = true →
          env.uploadOk (PublishJob.zoneManifestKey
            ("mp/" ++ env.project_slug ++ "/releases/" ++ env.release_id) z) = true)) := by
  by_cases hval : env.valid = true
  case neg =>
    rw [Bool.not_eq_true] at hval
    left
    simp only [PublishJob.run_publish_job, hval, Bool.false_eq_true, not_false_eq_true,
      ite_true, PublishJob.upJob_version, PublishJob.upJob_project, PublishJob.upJob_job,
      JobTracker.fail_job_status, and_self]
  case pos =>
    by_cases hfound : env.versionFound = true
    case neg =>
      rw [Bool.not_eq_true] at hfound
      left
      simp only [PublishJob.run_publish_job, hval, hfound, Bool.false_eq_true,
        not_false_eq_true, not_true_eq_false, ite_true, ite_false,
        PublishJob.upJob_version, PublishJob.upJob_project, PublishJob.upJob_job,
        PublishJob.logWarnings_version, PublishJob.logWarnings_project,
        JobTracker.fail_job_status, and_self]
    case pos =>
      by_cases hman : env.manifestOk = true
      case neg =>
        rw [Bool.not_eq_true] at hman
        left
        simp only [PublishJob.run_publish_job, hval, hfound, hman, Bool.false_eq_true,
          not_false_eq_true, not_true_eq_false, ite_true, ite_false,
          PublishJob.upJob_version, PublishJob.upJob_project, PublishJob.upJob_job,
          PublishJob.logWarnings_version, PublishJob.logWarnings_project,
          PublishJob.ite_version, PublishJob.ite_project, PublishJob.ite_fst, ite_self,
          JobTracker.fail_job_status, and_self]
      case pos =>
        by_cases hup : env.uploadOk ("mp/" ++ env.project_slug ++ "/releases/"
            ++ env.release_id ++ "/release.json") = true
        case neg =>
          rw [Bool.not_eq_true] at hup
          left
          simp only [PublishJob.run_publish_job, hval, hfound, hman, hup, Bool.false_eq_true,
            not_false_eq_true, not_true_eq_false, ite_true, ite_false,
            PublishJob.upJob_version, PublishJob.upJob_project, PublishJob.upJob_job,
            PublishJob.logWarnings_version, PublishJob.logWarnings_project,
            PublishJob.ite_version, PublishJob.ite_project, PublishJob.ite_fst, ite_self,
            JobTracker.fail_job_status, and_self]
        case pos =>
          simp only [PublishJob.run_publish_job, hval, hfound, hman, hup, Bool.false_eq_true,
            not_false_eq_true, not_true_eq_false, ite_true, ite_false]
          split
          · rename_i s1 msg heq
            left
            obtain ⟨hv, hp⟩ := (PublishJob.publishZoneLoop_state env _ _ _ _).2 _ _ heq
            refine ⟨?_, ?_, ?_⟩
            · simp only [PublishJob.upJob_version, hv, PublishJob.ite_version, ite_self,
                PublishJob.ite_fst, PublishJob.logWarnings_version]
            · simp only [PublishJob.upJob_project, hp, PublishJob.ite_project, ite_self,
                PublishJob.ite_fst, PublishJob.logWarnings_project]
            · simp only [PublishJob.upJob_job, JobTracker.fail_job_status]
          · rename_i s1 zis n heq
            by_cases hzi : zis.isEmpty = true
            · rw [if_pos hzi]
              right
              refine ⟨?_, ⟨_, rfl⟩, trivial, ?_⟩
              · simp only [PublishJob.upJob_job, JobTracker.complete_job_status]
              · intro z hz hne
                exact PublishJob.publishZoneLoop_uploads env _ _ _ _ _ _ _ heq z hz hne
            · by_cases hre : env.reuploadOk = true
              · rw [if_neg hzi, if_pos hre]
                right
                refine ⟨?_, ⟨_, rfl⟩, trivial, ?_⟩
                · simp only [PublishJob.upJob_job, JobTracker.complete_job_status]
                · intro z hz hne
                  exact PublishJob.publishZoneLoop_uploads env _ _ _ _ _ _ _ heq z hz hne
              · rw [if_neg hzi, if_neg hre]
                left
                obtain ⟨hv, hp⟩ := (PublishJob.publishZoneLoop_state env _ _ _ _).1 _ _ _ heq
                refine ⟨?_, ?_, ?_⟩
                · simp only [PublishJob.upJob_version, hv, PublishJob.ite_version, ite_self,
                    PublishJob.ite_fst, PublishJob.logWarnings_version]
                · simp only [PublishJob.upJob_project, hp, PublishJob.ite_project, ite_self,
                    PublishJob.ite_fst, PublishJob.logWarnings_project]
                · simp only [PublishJob.upJob_job, JobTracker.fail_job_status]

/-- C4: a publish run writes the two database records — the version's
published status and the project's current-release pointer — only after the
whole manifest upload phase succeeded and the run completes: a run that ends
in an exception, or whose job ends `failed`, leaves both rows exactly as they
were (the previously published release stays intact); conversely, if either
row changed, the job completed, the project-manifest upload and every
attempted zone-manifest upload succeeded, and the run returned a result. -/
theorem claim_C4_publish_atomicity (env : PublishJob.PubEnv) (s0 : PublishJob.PubState) :
    (∀ e, (PublishJob.run_publish_job env s0).2 = Except.error e →
        (PublishJob.run_publish_job env s0).1.version = s0.version
        ∧ (PublishJob.run_publish_job env s0).1.project = s0.project)
    ∧ ((PublishJob.run_publish_job env s0).1.job.status = "failed" →
        (PublishJob.run_publish_job env s0).1.version = s0.version
        ∧ (PublishJob.run_publish_job env s0).1.project = s0.project)
    ∧ (((PublishJob.run_publish_job env s0).1.version ≠ s0.version
        ∨ (PublishJob.run_publish_job env s0).1.project ≠ s0.project) →
        (PublishJob.run_publish_job env s0).1.job.status = "completed"
        ∧ env.uploadOk ("mp/" ++ env.project_slug ++ "/releases/" ++ env.release_id
            ++ "/release.json") = true
        ∧ (∀ z ∈ ReleaseService.get_zone_levels env.overlays,
            ¬ (ReleaseService.build_manifest env.overlays env.cfgViewBox z env.release_id
                env.project_slug env.user_email env.now
                (env.zoneTilesMeta z)).overlays.isEmpty = true →
            env.uploadOk (PublishJob.zoneManifestKey
              ("mp/" ++ env.project_slug ++ "/releases/" ++ env.release_id) z) = true)
        ∧ (∃ d, (PublishJob.run_publish_job env s0).2 = Except.ok d)) := by
  rcases run_publish_cases env s0 with ⟨hv, hp, _⟩ | ⟨hc, hok, hupl, hzu⟩
  · refine ⟨fun e _ => ⟨hv, hp⟩, fun _ => ⟨hv, hp⟩, fun hch => ?_⟩
    rcases hch with hch | hch
    · exact (hch hv).elim
    · exact (hch hp).elim
  · refine ⟨fun e he => ?_, fun hf => ?_, fun _ => ⟨hc, hupl, hzu, hok⟩⟩
    · obtain ⟨d, hd⟩ := hok
      rw [hd] at he
      exact Except.noConfusion he
    · rw [hc] at hf
      exact absurd hf (by decide)

/-- C4 witness: the atomicity property at a concrete all-successful publish
environment and a draft starting state. -/
theorem claim_C4_publish_atomicity_witness :
    (∀ e, (PublishJob.run_publish_job PublishJob.samplePubEnv PublishJob.samplePubState).2
        = Except.error e →
        (PublishJob.run_publish_job PublishJob.samplePubEnv PublishJob.samplePubState).1.version
          = PublishJob.samplePubState.version
        ∧ (PublishJob.run_publish_job PublishJob.samplePubEnv
            PublishJob.samplePubState).1.project = PublishJob.samplePubState.project)
    ∧ ((PublishJob.run_publish_job PublishJob.samplePubEnv
          PublishJob.samplePubState).1.job.status = "failed" →
        (PublishJob.run_publish_job PublishJob.samplePubEnv PublishJob.samplePubState).1.version
          = PublishJob.samplePubState.version
        ∧ (PublishJob.run_publish_job PublishJob.samplePubEnv
            PublishJob.samplePubState).1.project = PublishJob.samplePubState.project)
    ∧ (((PublishJob.run_publish_job PublishJob.samplePubEnv
          PublishJob.samplePubState).1.version ≠ PublishJob.samplePubState.version
        ∨ (PublishJob.run_publish_job PublishJob.samplePubEnv
            PublishJob.samplePubState).1.project ≠ PublishJob.samplePubState.project) →
        (PublishJob.run_publish_job PublishJob.samplePubEnv
          PublishJob.samplePubState).1.job.status = "completed"
        ∧ PublishJob.samplePubEnv.uploadOk ("mp/" ++ PublishJob.samplePubEnv.project_slug
            ++ "/releases/" ++ PublishJob.samplePubEnv.release_id ++ "/release.json") = true
        ∧ (∀ z ∈ ReleaseService.get_zone_levels PublishJob.samplePubEnv.overlays,
            ¬ (ReleaseService.build_manifest PublishJob.samplePubEnv.overlays
                PublishJob.samplePubEnv.cfgViewBox z PublishJob.samplePubEnv.release_id
                PublishJob.samplePubEnv.project_slug PublishJob.samplePubEnv.user_email
                PublishJob.samplePubEnv.now
                (PublishJob.samplePubEnv.zoneTilesMeta z)).overlays.isEmpty = true →
            PublishJob.samplePubEnv.uploadOk (PublishJob.zoneManifestKey
              ("mp/" ++ PublishJob.samplePubEnv.project_slug ++ "/releases/"
                ++ PublishJob.samplePubEnv.release_id) z) = true)
        ∧ (∃ d, (PublishJob.run_publish_job PublishJob.samplePubEnv
            PublishJob.samplePubState).2 = Except.ok d)) :=
  claim_C4_publish_atomicity PublishJob.samplePubEnv PublishJob.samplePubState
